import Mathlib

/-!
# Verification of the point-cloud visualizer's color, matching and registry logic

Shallow embedding of `src/visualizer.py`, `src/gui.py` and `src/data_loader.py`.
Python floats are modelled as exact rationals (`ℚ`), `numpy` reals as `ℝ`,
Python `dict`s as insertion-ordered association lists, Python `set`s as `Finset`.
-/

namespace PCViz

/-- An RGB color, components in `[0,1]`, as produced by the visualizer. -/
abbrev Color := ℚ × ℚ × ℚ

/-- The reserved sentinel color for unmatched map entities (pure red). -/
def redColor : Color := (1, 0, 0)

/-- Python's float `%` operator: `a % b = a - b * floor (a / b)`. -/
def pyFloorMod (a b : ℚ) : ℚ := a - b * ⌊a / b⌋

lemma pyFloorMod_eq_self (a b : ℚ) (h0 : 0 ≤ a) (hab : a < b) :
    pyFloorMod a b = a := by
  have hb : 0 < b := lt_of_le_of_lt h0 hab
  have hfl : ⌊a / b⌋ = 0 := by
    rw [Int.floor_eq_zero_iff]
    constructor
    · exact div_nonneg h0 hb.le
    · exact (div_lt_one hb).mpr hab
  unfold pyFloorMod
  rw [hfl]
  push_cast
  ring

/-- `colorsys.hsv_to_rgb`: `i = int(h*6); f = h*6 - i; p = v*(1-s);
`q = v*(1-s*f); t = v*(1-s*(1-f))`, then dispatch on `i % 6`.
(`int` truncation agrees with `⌊·⌋` for the nonnegative hues used here.) -/
def hsvToRgb (h s v : ℚ) : Color :=
  if s = 0 then (v, v, v)
  else
    let i : ℤ := ⌊h * 6⌋
    let f : ℚ := h * 6 - i
    let p : ℚ := v * (1 - s)
    let q : ℚ := v * (1 - s * f)
    let t : ℚ := v * (1 - s * (1 - f))
    let im : ℤ := i % 6
    if im = 0 then (v, t, p)
    else if im = 1 then (q, v, p)
    else if im = 2 then (p, v, t)
    else if im = 3 then (p, q, v)
    else if im = 4 then (t, p, v)
    else (v, p, q)

lemma floor_eq_of_bounds (q : ℚ) (z : ℤ) (h1 : (z : ℚ) ≤ q) (h2 : q < z + 1) :
    ⌊q⌋ = z := by
  rw [Int.floor_eq_iff]
  · exact ⟨h1, by exact_mod_cast h2⟩

/-- Hue (in degrees) of the `i`-th palette color in
`PointCloudVisualizer._generate_id_colors(num_colors)`:
`hue = red_range_end + (i / num_colors) * available_range` then `% 360`,
with `red_range_end = 20` and `available_range = 360 - 20 - 20 = 320`. -/
def generateIdColorHue (numColors i : ℕ) : ℚ :=
  pyFloorMod (20 + (i : ℚ) / (numColors : ℚ) * 320) 360

/-- `PointCloudVisualizer._generate_id_colors`: the id palette, saturation
`0.8`, value `0.9`, hues given by `generateIdColorHue`. -/
def generateIdColors (numColors : ℕ) : List Color :=
  (List.range numColors).map
    (fun i => hsvToRgb (generateIdColorHue numColors i / 360) (8/10) (9/10))

/-- `self.id_colors = self._generate_id_colors(18)`. -/
def idColors : List Color := generateIdColors 18

/-- `PointCloudVisualizer.get_color_by_id`: negative ids yield neutral gray
`(0.5, 0.5, 0.5)`; otherwise `self.id_colors[id % len(self.id_colors)]`. -/
def getColorById (id : ℤ) : Color :=
  if id < 0 then (1/2, 1/2, 1/2)
  else idColors.getD (id % 18).toNat (0, 0, 0)

/-- The hue (degrees) behind `getColorById id` for `id ≥ 0`. -/
def getHueById (id : ℤ) : ℚ := generateIdColorHue 18 (id % 18).toNat

lemma emod_18_toNat_lt (id : ℤ) : (id % 18).toNat < 18 := by
  have h1 : 0 ≤ id % 18 := Int.emod_nonneg id (by norm_num)
  have h2 : id % 18 < 18 := Int.emod_lt_of_pos id (by norm_num)
  omega

lemma idColors_getD (k : ℕ) (hk : k < 18) :
    idColors.getD k (0, 0, 0) =
      hsvToRgb (generateIdColorHue 18 k / 360) (8/10) (9/10) := by
  unfold idColors generateIdColors
  rw [List.getD_eq_getElem?_getD, List.getElem?_map, List.getElem?_range hk]
  rfl

lemma generateIdColorHue_eq (k : ℕ) (hk : k < 18) :
    generateIdColorHue 18 k = 20 + (k : ℚ) / 18 * 320 := by
  have hk17 : (k : ℚ) ≤ 17 := by exact_mod_cast Nat.lt_succ_iff.mp hk
  have hk0 : (0 : ℚ) ≤ (k : ℚ) := Nat.cast_nonneg k
  unfold generateIdColorHue
  push_cast
  apply pyFloorMod_eq_self
  · nlinarith
  · nlinarith

lemma generateIdColorHue_bounds (k : ℕ) (hk : k < 18) :
    20 ≤ generateIdColorHue 18 k ∧ generateIdColorHue 18 k < 340 := by
  have hk17 : (k : ℚ) ≤ 17 := by exact_mod_cast Nat.lt_succ_iff.mp hk
  have hk0 : (0 : ℚ) ≤ (k : ℚ) := Nat.cast_nonneg k
  rw [generateIdColorHue_eq k hk]
  constructor
  · nlinarith
  · nlinarith

/-- C6 (amended): `get_color_by_id` is a deterministic function of the id; for
`id ≥ 0` its hue lies in `[20°, 340°)` — outside `[0°,20°) ∪ [340°,360°]`, but
touching the reserved band's lower boundary `20°` when `id ≡ 0 (mod 18)` — and
for every negative id it returns exactly `(0.5, 0.5, 0.5)`. -/
theorem getColorById_spec (id : ℤ) :
    (0 ≤ id →
      20 ≤ getHueById id ∧ getHueById id < 340 ∧
      getColorById id = hsvToRgb (getHueById id / 360) (8/10) (9/10)) ∧
    (id < 0 → getColorById id = (1/2, 1/2, 1/2)) := by
  constructor
  · intro hpos
    have hk := emod_18_toNat_lt id
    have hb := generateIdColorHue_bounds _ hk
    refine ⟨hb.1, hb.2, ?_⟩
    unfold getColorById getHueById
    rw [if_neg (by omega)]
    exact idColors_getD _ hk
  · intro hneg
    unfold getColorById
    rw [if_pos hneg]

/-- Witness for `getColorById_spec` at the concrete ids `3` and `-1`. -/
theorem getColorById_spec_witness :
    (20 ≤ getHueById 3 ∧ getHueById 3 < 340 ∧
      getColorById 3 = hsvToRgb (getHueById 3 / 360) (8/10) (9/10)) ∧
    getColorById (-1) = (1/2, 1/2, 1/2) :=
  ⟨(getColorById_spec 3).1 (by norm_num), (getColorById_spec (-1)).2 (by norm_num)⟩

/-- C6 counterexample: the claim as stated says the hue of `get_color_by_id id`
is strictly outside the reserved band `[0°,20°] ∪ [340°,360°]` for every
`id ≥ 0`; but for `id = 0` the hue is exactly `20°`, which lies in the closed
band (the code starts the remapped hues *at* 20°, not immediately after it). -/
theorem getColorById_red_band_cex :
    getHueById 0 = 20 ∧ (0 ≤ getHueById 0 ∧ getHueById 0 ≤ 20) ∧
    getColorById 0 = hsvToRgb (20 / 360) (8/10) (9/10) := by
  have h0 : ((0 : ℤ) % 18).toNat = 0 := by norm_num
  have hhue : getHueById 0 = 20 := by
    unfold getHueById
    rw [h0, generateIdColorHue_eq 0 (by norm_num)]
    norm_num
  refine ⟨hhue, ⟨by rw [hhue]; norm_num, by rw [hhue]⟩, ?_⟩
  unfold getColorById
  rw [if_neg (by norm_num), h0, idColors_getD 0 (by norm_num),
    generateIdColorHue_eq 0 (by norm_num)]
  norm_num

/-! ## `generate_distinct_colors` (golden-angle per-point palette) -/

/-- `golden_angle = 0.618033988749895` as written in the source. -/
def goldenAngle : ℚ := 618033988749895 / 1000000000000000

/-- Numerator of `goldenAngle` (as a natural number). -/
def gdNum : ℕ := 618033988749895

/-- Denominator of `goldenAngle` (as a natural number). -/
def gdDen : ℕ := 1000000000000000

/-- `red_range_end = 20.0 / 360.0`. -/
def redRangeEndQ : ℚ := 20 / 360

/-- `red_range_start2 = 340.0 / 360.0`. -/
def redRangeStart2Q : ℚ := 340 / 360

/-- `available_range = 1.0 - (red_range_end - 0.0) - (1.0 - red_range_start2)`. -/
def availableRangeQ : ℚ := 1 - (redRangeEndQ - 0) - (1 - redRangeStart2Q)

/-- `hue_raw = (i * golden_angle) % 1.0`. -/
def distinctHueRaw (i : ℕ) : ℚ := pyFloorMod ((i : ℚ) * goldenAngle) 1

/-- The hue of the `i`-th color produced by
`PointCloudVisualizer.generate_distinct_colors` for `num_colors > 1`:
the golden-angle raw hue remapped away from the red band, then `% 1.0`. -/
def distinctColorHue (i : ℕ) : ℚ :=
  let hueRaw := distinctHueRaw i
  let hue :=
    if hueRaw < redRangeEndQ then
      redRangeEndQ + hueRaw / redRangeEndQ * (availableRangeQ / 2)
    else if redRangeStart2Q < hueRaw then
      redRangeStart2Q - availableRangeQ / 2 +
        (hueRaw - redRangeStart2Q) / (1 - redRangeStart2Q) * (availableRangeQ / 2)
    else
      redRangeEndQ + (hueRaw - redRangeEndQ) / (redRangeStart2Q - redRangeEndQ) * availableRangeQ
  pyFloorMod hue 1

/-- Saturation of the `i`-th color: clustered only for `num_colors > 100`. -/
def distinctSat (numColors : ℕ) (saturation : ℚ) (i : ℕ) : ℚ :=
  if 100 < numColors then saturation * (7/10 + 3/10 * ((i % 3 : ℕ) : ℚ) / 2)
  else saturation

/-- Value of the `i`-th color: clustered only for `num_colors > 100`. -/
def distinctVal (numColors : ℕ) (value : ℚ) (i : ℕ) : ℚ :=
  if 100 < numColors then value * (8/10 + 2/10 * ((i % 5 : ℕ) : ℚ) / 4)
  else value

/-- `PointCloudVisualizer.generate_distinct_colors`: empty for `n ≤ 0`, a fixed
green for `n = 1`, otherwise `n` golden-angle colors with red-band remapping. -/
def generateDistinctColors (numColors : ℕ) (saturation value : ℚ) : List Color :=
  if numColors = 0 then []
  else if numColors = 1 then [hsvToRgb (120/360) saturation value]
  else
    (List.range numColors).map
      (fun i => hsvToRgb (distinctColorHue i)
        (distinctSat numColors saturation i) (distinctVal numColors value i))

/-- Numerator of `rawHue i` over the denominator `gdDen`. -/
def rawNum (i : ℕ) : ℕ := (i * gdNum) % gdDen

/-- Integer numerator of `distinctColorHue i` over the denominator `18 * gdDen`. -/
def hueNum (i : ℕ) : ℤ :=
  if 18 * rawNum i < gdDen then (gdDen : ℤ) + 144 * rawNum i
  else if 17 * gdDen < 18 * rawNum i then 144 * (rawNum i : ℤ) - 127 * gdDen
  else 18 * (rawNum i : ℤ)

lemma rawNum_lt (i : ℕ) : rawNum i < gdDen := Nat.mod_lt _ (by norm_num [gdDen])

lemma distinctHueRaw_eq (i : ℕ) : distinctHueRaw i = (rawNum i : ℚ) / (gdDen : ℚ) := by
  have hQ : (0 : ℚ) < (gdDen : ℚ) := by norm_num [gdDen]
  have harg : (i : ℚ) * goldenAngle = ((i * gdNum : ℕ) : ℚ) / (gdDen : ℚ) := by
    unfold goldenAngle gdNum gdDen
    push_cast
    ring
  unfold distinctHueRaw pyFloorMod
  rw [harg, div_one]
  generalize hm : i * gdNum = m
  have hdm : m = gdDen * (m / gdDen) + rawNum i := by
    rw [← hm]
    unfold rawNum
    exact (Nat.div_add_mod _ _).symm
  generalize hk : m / gdDen = k at hdm
  have hdmQ : (m : ℚ) = (gdDen : ℚ) * (k : ℚ) + (rawNum i : ℚ) := by exact_mod_cast hdm
  have hrQ : ((rawNum i : ℕ) : ℚ) < (gdDen : ℚ) := by exact_mod_cast rawNum_lt i
  have hr0 : (0 : ℚ) ≤ ((rawNum i : ℕ) : ℚ) := by positivity
  have hfl : ⌊(m : ℚ) / (gdDen : ℚ)⌋ = (k : ℤ) := by
    apply floor_eq_of_bounds
    · rw [le_div_iff₀ hQ]
      push_cast
      linarith
    · rw [div_lt_iff₀ hQ]
      push_cast
      linarith
  rw [hfl]
  push_cast
  field_simp
  linarith

lemma gdDen18_pos : (0 : ℚ) < ((18 * gdDen : ℕ) : ℚ) := by norm_num [gdDen]

lemma distinctColorHue_eq (i : ℕ) :
    distinctColorHue i = (hueNum i : ℚ) / ((18 * gdDen : ℕ) : ℚ) := by
  have hQ : (0 : ℚ) < (gdDen : ℚ) := by norm_num [gdDen]
  have hr : rawNum i < gdDen := rawNum_lt i
  have hrQ : ((rawNum i : ℕ) : ℚ) < (gdDen : ℚ) := by exact_mod_cast hr
  have hr0 : (0 : ℚ) ≤ ((rawNum i : ℕ) : ℚ) := by positivity
  have hcond1 : ((rawNum i : ℚ) / (gdDen : ℚ) < redRangeEndQ) ↔ 18 * rawNum i < gdDen := by
    rw [redRangeEndQ, div_lt_div_iff₀ hQ (by norm_num)]
    constructor
    · intro h
      have h18 : ((18 * rawNum i : ℕ) : ℚ) < ((gdDen : ℕ) : ℚ) := by push_cast; linarith
      exact_mod_cast h18
    · intro h
      have h18 : ((18 * rawNum i : ℕ) : ℚ) < ((gdDen : ℕ) : ℚ) := by exact_mod_cast h
      push_cast at h18
      linarith
  have hcond2 : (redRangeStart2Q < (rawNum i : ℚ) / (gdDen : ℚ)) ↔ 17 * gdDen < 18 * rawNum i := by
    rw [redRangeStart2Q, div_lt_div_iff₀ (by norm_num) hQ]
    constructor
    · intro h
      have h18 : ((17 * gdDen : ℕ) : ℚ) < ((18 * rawNum i : ℕ) : ℚ) := by push_cast; linarith
      exact_mod_cast h18
    · intro h
      have h18 : ((17 * gdDen : ℕ) : ℚ) < ((18 * rawNum i : ℕ) : ℚ) := by exact_mod_cast h
      push_cast at h18
      linarith
  simp only [distinctColorHue, distinctHueRaw_eq]
  rcases lt_or_le (18 * rawNum i) gdDen with h1 | h1
  · have h1Q : 18 * ((rawNum i : ℕ) : ℚ) < (gdDen : ℚ) := by
      have : ((18 * rawNum i : ℕ) : ℚ) < ((gdDen : ℕ) : ℚ) := by exact_mod_cast h1
      push_cast at this
      linarith
    rw [if_pos (hcond1.mpr h1)]
    have hval : redRangeEndQ + (rawNum i : ℚ) / (gdDen : ℚ) / redRangeEndQ * (availableRangeQ / 2)
        = (hueNum i : ℚ) / ((18 * gdDen : ℕ) : ℚ) := by
      unfold hueNum
      rw [if_pos h1]
      simp only [availableRangeQ, redRangeStart2Q, redRangeEndQ]
      push_cast
      field_simp
      ring
    rw [hval]
    apply pyFloorMod_eq_self
    · apply div_nonneg _ gdDen18_pos.le
      unfold hueNum
      rw [if_pos h1]
      push_cast
      positivity
    · rw [div_lt_one gdDen18_pos]
      unfold hueNum
      rw [if_pos h1]
      push_cast
      linarith
  · rw [if_neg (by rw [hcond1]; omega)]
    rcases lt_or_le (17 * gdDen) (18 * rawNum i) with h2 | h2
    · have h2Q : 17 * (gdDen : ℚ) < 18 * ((rawNum i : ℕ) : ℚ) := by
        have : ((17 * gdDen : ℕ) : ℚ) < ((18 * rawNum i : ℕ) : ℚ) := by exact_mod_cast h2
        push_cast at this
        linarith
      rw [if_pos (hcond2.mpr h2)]
      have hval : redRangeStart2Q - availableRangeQ / 2 +
          ((rawNum i : ℚ) / (gdDen : ℚ) - redRangeStart2Q) / (1 - redRangeStart2Q) * (availableRangeQ / 2)
          = (hueNum i : ℚ) / ((18 * gdDen : ℕ) : ℚ) := by
        unfold hueNum
        rw [if_neg (by omega), if_pos h2]
        simp only [availableRangeQ, redRangeStart2Q, redRangeEndQ]
        push_cast
        field_simp
        ring
      rw [hval]
      apply pyFloorMod_eq_self
      · apply div_nonneg _ gdDen18_pos.le
        unfold hueNum
        rw [if_neg (by omega), if_pos h2]
        push_cast
        linarith
      · rw [div_lt_one gdDen18_pos]
        unfold hueNum
        rw [if_neg (by omega), if_pos h2]
        push_cast
        linarith
    · have h2Q : 18 * ((rawNum i : ℕ) : ℚ) ≤ 17 * (gdDen : ℚ) := by
        have : ((18 * rawNum i : ℕ) : ℚ) ≤ ((17 * gdDen : ℕ) : ℚ) := by exact_mod_cast h2
        push_cast at this
        linarith
      have h1Q : (gdDen : ℚ) ≤ 18 * ((rawNum i : ℕ) : ℚ) := by
        have : ((gdDen : ℕ) : ℚ) ≤ ((18 * rawNum i : ℕ) : ℚ) := by exact_mod_cast h1
        push_cast at this
        linarith
      rw [if_neg (by rw [hcond2]; omega)]
      have hval : redRangeEndQ + ((rawNum i : ℚ) / (gdDen : ℚ) - redRangeEndQ) /
            (redRangeStart2Q - redRangeEndQ) * availableRangeQ
          = (hueNum i : ℚ) / ((18 * gdDen : ℕ) : ℚ) := by
        unfold hueNum
        rw [if_neg (by omega), if_neg (by omega)]
        simp only [availableRangeQ, redRangeStart2Q, redRangeEndQ]
        push_cast
        field_simp
        ring
      rw [hval]
      apply pyFloorMod_eq_self
      · apply div_nonneg _ gdDen18_pos.le
        unfold hueNum
        rw [if_neg (by omega), if_neg (by omega)]
        push_cast
        positivity
      · rw [div_lt_one gdDen18_pos]
        unfold hueNum
        rw [if_neg (by omega), if_neg (by omega)]
        push_cast
        linarith

lemma hueNum_lb (i : ℕ) : (gdDen : ℤ) ≤ hueNum i := by
  have hr : rawNum i < gdDen := rawNum_lt i
  unfold hueNum
  split_ifs with h1 h2 <;> omega

lemma hueNum_ub (i : ℕ) : hueNum i < 17 * (gdDen : ℤ) := by
  have hr : rawNum i < gdDen := rawNum_lt i
  unfold hueNum
  split_ifs with h1 h2
  · omega
  · omega
  · -- middle branch: `18 * r ≤ 17 * gdDen` and equality is impossible mod 9
    have hne : 18 * rawNum i ≠ 17 * gdDen := by
      intro heq
      have h9 : (17 * gdDen) % 9 = 0 := by omega
      rw [gdDen] at h9
      norm_num at h9
    omega

lemma hueNum_mod9 (i : ℕ) : (hueNum i) % 9 = 1 ∨ (hueNum i) % 9 = 8 ∨ (hueNum i) % 9 = 0 := by
  have h9 : (gdDen : ℤ) % 9 = 1 := by rw [gdDen]; norm_num
  unfold hueNum
  split_ifs with h1 h2
  · left; omega
  · right; left; omega
  · right; right; omega

lemma rawNum_inj (i j : ℕ) (hij : i < j) (hlt : j - i < 2 * 10 ^ 14) :
    rawNum i ≠ rawNum j := by
  intro h
  unfold rawNum at h
  have hdvd : gdDen ∣ (j - i) * gdNum := by
    have hmod : (i * gdNum) % gdDen = (j * gdNum) % gdDen := h
    have hsub : (j - i) * gdNum = j * gdNum - i * gdNum := by
      rw [Nat.sub_mul]
    rw [hsub]
    exact (Nat.modEq_iff_dvd' (Nat.mul_le_mul_right _ hij.le)).mp hmod
  -- `gdNum = 5 * 123606797749979`, `gdDen = 5 * (2 * 10^14)`
  have hfac : (j - i) * gdNum = 5 * ((j - i) * 123606797749979) := by
    rw [gdNum]; ring
  have hdvd2 : 2 * 10 ^ 14 ∣ (j - i) * 123606797749979 := by
    have : 5 * (2 * 10 ^ 14) ∣ 5 * ((j - i) * 123606797749979) := by
      rw [← hfac]
      calc (5 * (2 * 10 ^ 14) : ℕ) = gdDen := by rw [gdDen]; norm_num
        _ ∣ (j - i) * gdNum := hdvd
    exact (Nat.mul_dvd_mul_iff_left (by norm_num : (0:ℕ) < 5)).mp this
  have hcop10 : Nat.Coprime 10 123606797749979 := by
    show Nat.gcd 10 123606797749979 = 1
    norm_num
  have hcop : Nat.Coprime (2 * 10 ^ 14) 123606797749979 := by
    apply Nat.Coprime.mul
    · exact Nat.Coprime.coprime_dvd_left (show (2:ℕ) ∣ 10 by norm_num) hcop10
    · exact hcop10.pow_left 14
  have hdvd3 : 2 * 10 ^ 14 ∣ j - i := hcop.dvd_of_dvd_mul_right hdvd2
  have hle : 2 * 10 ^ 14 ≤ j - i := Nat.le_of_dvd (Nat.sub_pos_of_lt hij) hdvd3
  exact absurd hlt (Nat.not_lt.mpr hle)

lemma distinctColorHue_inj (i j : ℕ) (hij : i < j) (hlt : j - i < 2 * 10 ^ 14) :
    distinctColorHue i ≠ distinctColorHue j := by
  intro heq
  rw [distinctColorHue_eq i, distinctColorHue_eq j] at heq
  have hNum : hueNum i = hueNum j := by
    have h18 : ((18 * gdDen : ℕ) : ℚ) ≠ 0 := ne_of_gt gdDen18_pos
    rw [div_eq_div_iff h18 h18] at heq
    exact_mod_cast mul_right_cancel₀ h18 heq
  have hri : rawNum i < gdDen := rawNum_lt i
  have hrj : rawNum j < gdDen := rawNum_lt j
  have hrne : rawNum i ≠ rawNum j := rawNum_inj i j hij hlt
  have h9 : (gdDen : ℤ) % 9 = 1 := by rw [gdDen]; norm_num
  unfold hueNum at hNum
  split_ifs at hNum <;> omega

/-- C7 (amended): `generate_distinct_colors(1)` is the single fixed green color
(`hsv(120°, s, v)`, i.e. `(0.18, 0.9, 0.18)` at the default saturation/value);
for `n ≥ 0` exactly `n` colors are returned; for `n > 1` the colors are
`hsv(distinctColorHue i, ...)` where every hue lies in `[20°, 340°)` as a
fraction of the circle (`[1/18, 17/18)`) — so no hue is in `[0°,20°)` nor in
`[340°,360°]`, although the first hue is exactly the band boundary `20°` — and
the hues are pairwise distinct for all indices less than `2·10¹⁴` apart
(the saturation/value clustering for `n > 100` never touches the hue). -/
theorem generateDistinctColors_spec :
    (∀ s v : ℚ, generateDistinctColors 1 s v = [hsvToRgb (120/360) s v]) ∧
    (generateDistinctColors 1 (8/10) (9/10) = [(9/50, 9/10, 9/50)]) ∧
    (∀ (n : ℕ) (s v : ℚ), (generateDistinctColors n s v).length = n) ∧
    (∀ (n : ℕ) (s v : ℚ), 1 < n →
      generateDistinctColors n s v = (List.range n).map
        (fun i => hsvToRgb (distinctColorHue i) (distinctSat n s i) (distinctVal n v i))) ∧
    (∀ i : ℕ, 1/18 ≤ distinctColorHue i ∧ distinctColorHue i < 17/18) ∧
    (∀ i j : ℕ, i < j → j - i < 2 * 10 ^ 14 →
      distinctColorHue i ≠ distinctColorHue j) := by
  have hgreen : hsvToRgb (1/3) (4/5) (9/10) = ((9/50 : ℚ), (9/10 : ℚ), (9/50 : ℚ)) := by
    have hf : ⌊(1/3 : ℚ) * 6⌋ = 2 := floor_eq_of_bounds _ 2 (by norm_num) (by norm_num)
    simp only [hsvToRgb, hf]
    norm_num
  refine ⟨fun s v => rfl, by rw [generateDistinctColors]; norm_num [hgreen], ?_, ?_, ?_, ?_⟩
  · intro n s v
    unfold generateDistinctColors
    split_ifs with h0 h1
    · simp [h0]
    · simp [h1]
    · simp
  · intro n s v hn
    unfold generateDistinctColors
    rw [if_neg (by omega), if_neg (by omega)]
  · intro i
    rw [distinctColorHue_eq i]
    have hlb := hueNum_lb i
    have hub := hueNum_ub i
    constructor
    · rw [le_div_iff₀ gdDen18_pos]
      have : ((gdDen : ℕ) : ℚ) ≤ ((hueNum i : ℤ) : ℚ) := by exact_mod_cast hlb
      push_cast at this ⊢
      linarith
    · rw [div_lt_div_iff₀ gdDen18_pos (by norm_num)]
      have : ((hueNum i : ℤ) : ℚ) < ((17 * gdDen : ℤ) : ℚ) := by exact_mod_cast hub
      push_cast at this ⊢
      linarith
  · exact distinctColorHue_inj

/-- Witness for `generateDistinctColors_spec`: the list shape at `n = 2` and
hue distinctness of the first two colors. -/
theorem generateDistinctColors_spec_witness :
    generateDistinctColors 2 (8/10) (9/10) = (List.range 2).map
      (fun i => hsvToRgb (distinctColorHue i) (distinctSat 2 (8/10) i) (distinctVal 2 (9/10) i)) ∧
    distinctColorHue 0 ≠ distinctColorHue 1 :=
  ⟨generateDistinctColors_spec.2.2.2.1 2 (8/10) (9/10) (by norm_num),
   generateDistinctColors_spec.2.2.2.2.2 0 1 (by norm_num) (by norm_num)⟩

/-- C7 counterexample: the claim as stated asserts that for `n > 1` none of the
hues lies in the reserved red band; with the band `[0°,20°] ∪ [340°,360°]` as
reserved by the system, the *first* color of `generate_distinct_colors(2)` has
hue exactly `20°` (`1/18` of the circle), which lies in the closed band: the
golden-angle remapping sends `hue_raw = 0` to `red_range_end` itself. -/
theorem generateDistinctColors_red_band_cex :
    distinctColorHue 0 = 1/18 ∧ (20 : ℚ)/360 = 1/18 ∧
    (generateDistinctColors 2 (8/10) (9/10)).getD 0 (0, 0, 0)
      = hsvToRgb (1/18) (8/10) (9/10) := by
  have hr0 : rawNum 0 = 0 := by unfold rawNum; norm_num
  have hhue : distinctColorHue 0 = 1/18 := by
    rw [distinctColorHue_eq 0]
    unfold hueNum
    rw [hr0]
    rw [if_pos (by rw [gdDen]; norm_num)]
    rw [gdDen]
    norm_num
  refine ⟨hhue, by norm_num, ?_⟩
  unfold generateDistinctColors
  rw [if_neg (by omega), if_neg (by omega)]
  rw [List.getD_eq_getElem?_getD, List.getElem?_map]
  rw [List.getElem?_range (by norm_num)]
  have hs : distinctSat 2 (8/10) 0 = 8/10 := by unfold distinctSat; norm_num
  have hv : distinctVal 2 (9/10) 0 = 9/10 := by unfold distinctVal; norm_num
  simp only [Option.map_some', Option.getD_some, hhue, hs, hv]

/-! ## `_save_matched_and_unmatched_points`: partition and export format -/

/-- `matched_map_ids = set()` then, for each `(cur_id, other_id)` of
`dense_pt_match_mapping.items()`, add `other_id` when `0 ≤ other_id < num_points`. -/
def matchedMapIds (densePtMatchMapping : List (ℤ × ℤ)) (numPoints : ℕ) : Finset ℤ :=
  densePtMatchMapping.foldl
    (fun s p => if 0 ≤ p.2 ∧ p.2 < (numPoints : ℤ) then insert p.2 s else s) ∅

/-- `all_map_ids = set(range(num_points))`. -/
def allMapIds (numPoints : ℕ) : Finset ℤ :=
  (Finset.range numPoints).image (fun n : ℕ => (n : ℤ))

/-- `unmatched_map_ids = all_map_ids - matched_map_ids` (set difference). -/
def unmatchedMapIds (densePtMatchMapping : List (ℤ × ℤ)) (numPoints : ℕ) : Finset ℤ :=
  allMapIds numPoints \ matchedMapIds densePtMatchMapping numPoints

lemma mem_matchedMapIds_aux (l : List (ℤ × ℤ)) (acc : Finset ℤ) (x : ℤ) (N : ℕ) :
    (x ∈ l.foldl
        (fun s p => if 0 ≤ p.2 ∧ p.2 < (N : ℤ) then insert p.2 s else s) acc) ↔
      x ∈ acc ∨ ((∃ c, (c, x) ∈ l) ∧ 0 ≤ x ∧ x < (N : ℤ)) := by
  induction l generalizing acc with
  | nil => simp
  | cons hd tl ih =>
    rw [List.foldl_cons, ih]
    by_cases hv : 0 ≤ hd.2 ∧ hd.2 < (N : ℤ)
    · rw [if_pos hv]
      simp only [Finset.mem_insert, List.mem_cons]
      constructor
      · rintro ((rfl | hacc) | ⟨⟨c, hc⟩, hx⟩)
        · exact Or.inr ⟨⟨hd.1, Or.inl rfl⟩, hv⟩
        · exact Or.inl hacc
        · exact Or.inr ⟨⟨c, Or.inr hc⟩, hx⟩
      · rintro (hacc | ⟨⟨c, (heq | hc)⟩, hx⟩)
        · exact Or.inl (Or.inr hacc)
        · left; left
          rw [← heq]
        · exact Or.inr ⟨⟨c, hc⟩, hx⟩
    · rw [if_neg hv]
      simp only [List.mem_cons]
      constructor
      · rintro (hacc | ⟨⟨c, hc⟩, hx⟩)
        · exact Or.inl hacc
        · exact Or.inr ⟨⟨c, Or.inr hc⟩, hx⟩
      · rintro (hacc | ⟨⟨c, (heq | hc)⟩, hx⟩)
        · exact Or.inl hacc
        · rw [← heq] at hv
          exact absurd hx hv
        · exact Or.inr ⟨⟨c, hc⟩, hx⟩

lemma mem_matchedMapIds (mapping : List (ℤ × ℤ)) (N : ℕ) (x : ℤ) :
    x ∈ matchedMapIds mapping N ↔
      (∃ c, (c, x) ∈ mapping) ∧ 0 ≤ x ∧ x < (N : ℤ) := by
  unfold matchedMapIds
  rw [mem_matchedMapIds_aux]
  simp

lemma mem_allMapIds (N : ℕ) (x : ℤ) : x ∈ allMapIds N ↔ 0 ≤ x ∧ x < (N : ℤ) := by
  unfold allMapIds
  simp only [Finset.mem_image, Finset.mem_range]
  constructor
  · rintro ⟨n, hn, rfl⟩
    exact ⟨Int.ofNat_nonneg n, by exact_mod_cast hn⟩
  · rintro ⟨h0, hN⟩
    exact ⟨x.toNat, by omega, by omega⟩

lemma matchedMapIds_subset (mapping : List (ℤ × ℤ)) (N : ℕ) :
    matchedMapIds mapping N ⊆ allMapIds N := by
  intro x hx
  rw [mem_matchedMapIds] at hx
  rw [mem_allMapIds]
  exact hx.2

/-- C3: the valid matched map ids and the unmatched map ids (computed by set
difference, `unmatched = all − matched`) are disjoint and their union is
exactly `{0, ..., N-1}`; `matched_map_ids` contains precisely the `other`
indices of the mapping lying in `[0, N)`, so every index is classified
exactly once. -/
theorem matched_unmatched_partition (mapping : List (ℤ × ℤ)) (N : ℕ) :
    Disjoint (matchedMapIds mapping N) (unmatchedMapIds mapping N) ∧
    matchedMapIds mapping N ∪ unmatchedMapIds mapping N = allMapIds N ∧
    (∀ x : ℤ, x ∈ matchedMapIds mapping N ↔
      (∃ c, (c, x) ∈ mapping) ∧ 0 ≤ x ∧ x < (N : ℤ)) ∧
    (∀ x : ℤ, x ∈ allMapIds N ↔ 0 ≤ x ∧ x < (N : ℤ)) ∧
    unmatchedMapIds mapping N = allMapIds N \ matchedMapIds mapping N := by
  refine ⟨Finset.disjoint_sdiff, ?_, mem_matchedMapIds mapping N, mem_allMapIds N, rfl⟩
  exact Finset.union_sdiff_of_subset (matchedMapIds_subset mapping N)

/-- `sorted(s, reverse=True)`. -/
def sortedDescIds (s : Finset ℤ) : List ℤ := (s.sort (· ≤ ·)).reverse

/-- `"=" * 50`, the separator line written below each header. -/
def eqSeparatorLine : String := String.mk (List.replicate 50 '=')

/-- Python's `f"{i:6d}"`: the decimal form of `i` right-justified to width 6. -/
def intWidth6 (i : ℤ) : String :=
  String.mk (List.replicate (6 - (toString i).length) ' ') ++ toString i

/-- The linear scan `for cur_id, other_id in dense_pt_match_mapping.items():
if other_id == point_id: frame_id_for_point = cur_id; break`. -/
def frameIdForPoint (mapping : List (ℤ × ℤ)) (pointId : ℤ) : Option ℤ :=
  (mapping.find? (fun p => p.2 = pointId)).map Prod.fst

/-- Python string interpolation of an optional integer (`None` prints as such). -/
def optIdStr : Option ℤ → String
  | some i => toString i
  | none => "None"

/-- The lines written to `matched_map_dense_cloud_points_{frame_id}.txt`:
a header, a `"="*50` separator, then one `map_id: ... -> frame_id: ...` line
per matched id, ids in descending order. -/
def matchedFileLines (mapping : List (ℤ × ℤ)) (numPoints : ℕ) : List String :=
  let ids := sortedDescIds (matchedMapIds mapping numPoints)
  ("匹配的map dense_cloud点id（共 " ++ toString ids.length ++ " 个，按id从大到小排序）")
    :: eqSeparatorLine
    :: ids.map (fun pointId =>
        "map_id: " ++ intWidth6 pointId ++ " -> frame_id: "
          ++ optIdStr (frameIdForPoint mapping pointId))

/-- The lines written to `unmatched_map_dense_cloud_points_{frame_id}.txt`:
a header, a `"="*50` separator, then one plain integer per line, descending. -/
def unmatchedFileLines (mapping : List (ℤ × ℤ)) (numPoints : ℕ) : List String :=
  let ids := sortedDescIds (unmatchedMapIds mapping numPoints)
  ("未匹配的map dense_cloud点id（共 " ++ toString ids.length ++ " 个，按id从大到小排序）")
    :: eqSeparatorLine
    :: ids.map (fun pointId => toString pointId)

/-- Does a line consist of a plain (optionally negative) decimal integer? -/
def isPlainIntLine (s : String) : Bool :=
  match s.data with
  | [] => false
  | c :: rest =>
    if c = '-' then !rest.isEmpty && rest.all Char.isDigit
    else (c :: rest).all Char.isDigit

lemma sortedDescIds_pairwise (s : Finset ℤ) :
    List.Pairwise (· > ·) (sortedDescIds s) := by
  unfold sortedDescIds
  rw [List.pairwise_reverse]
  exact Finset.sort_sorted_lt s

lemma mem_sortedDescIds (s : Finset ℤ) (x : ℤ) : x ∈ sortedDescIds s ↔ x ∈ s := by
  unfold sortedDescIds
  rw [List.mem_reverse, Finset.mem_sort]

/-- C8 (amended): each export file is a header line and a `"="*50` separator
followed by the ids in strictly descending order, one per line — plain
integers in the unmatched file, `map_id: <id> -> frame_id: <cur>` lines
(id right-justified to width 6) in the matched file; the listed ids are
exactly the members of the corresponding set. -/
theorem saveMatchedUnmatched_format (mapping : List (ℤ × ℤ)) (N : ℕ) :
    List.Pairwise (· > ·) (sortedDescIds (matchedMapIds mapping N)) ∧
    List.Pairwise (· > ·) (sortedDescIds (unmatchedMapIds mapping N)) ∧
    (∀ x : ℤ, x ∈ sortedDescIds (matchedMapIds mapping N) ↔ x ∈ matchedMapIds mapping N) ∧
    (∀ x : ℤ, x ∈ sortedDescIds (unmatchedMapIds mapping N) ↔ x ∈ unmatchedMapIds mapping N) ∧
    matchedFileLines mapping N =
      ("匹配的map dense_cloud点id（共 "
          ++ toString (sortedDescIds (matchedMapIds mapping N)).length
          ++ " 个，按id从大到小排序）")
        :: eqSeparatorLine
        :: (sortedDescIds (matchedMapIds mapping N)).map (fun pointId =>
            "map_id: " ++ intWidth6 pointId ++ " -> frame_id: "
              ++ optIdStr (frameIdForPoint mapping pointId)) ∧
    unmatchedFileLines mapping N =
      ("未匹配的map dense_cloud点id（共 "
          ++ toString (sortedDescIds (unmatchedMapIds mapping N)).length
          ++ " 个，按id从大到小排序）")
        :: eqSeparatorLine
        :: (sortedDescIds (unmatchedMapIds mapping N)).map (fun pointId => toString pointId) :=
  ⟨sortedDescIds_pairwise _, sortedDescIds_pairwise _,
   mem_sortedDescIds _, mem_sortedDescIds _, rfl, rfl⟩

/-- C8 counterexample: with one valid match `(0, 1)` and a 2-point map cloud,
neither export file consists only of plain integer lines: both start with a
header and a `"="*50` separator, and the matched file's id lines have the form
`map_id: <id> -> frame_id: <cur>` rather than a bare integer. -/
theorem saveMatchedUnmatched_plain_int_cex :
    (matchedFileLines [(0, 1)] 2).all isPlainIntLine = false ∧
    (unmatchedFileLines [(0, 1)] 2).all isPlainIntLine = false ∧
    matchedFileLines [(0, 1)] 2 =
      ["匹配的map dense_cloud点id（共 1 个，按id从大到小排序）", eqSeparatorLine,
        "map_id:      1 -> frame_id: 0"] := by
  have hmatched : matchedMapIds [(0, 1)] 2 = {1} := by decide
  have hunmatched : unmatchedMapIds [(0, 1)] 2 = {0} := by decide
  have hsortm : sortedDescIds (matchedMapIds [(0, 1)] 2) = [1] := by
    rw [hmatched]
    unfold sortedDescIds
    rw [Finset.sort_singleton]
    rfl
  have hsortu : sortedDescIds (unmatchedMapIds [(0, 1)] 2) = [0] := by
    rw [hunmatched]
    unfold sortedDescIds
    rw [Finset.sort_singleton]
    rfl
  refine ⟨?_, ?_, ?_⟩
  · unfold matchedFileLines
    rw [hsortm]
    decide
  · unfold unmatchedFileLines
    rw [hsortu]
    decide
  · unfold matchedFileLines
    rw [hsortm]
    decide

/-! ## `DataLoader.quaternion_to_rotation_matrix` -/

/-- The `3×3` matrix built from the (already normalized) components, exactly
the array literal in the source:
`[[1-2(y²+z²), 2(xy-wz), 2(xz+wy)], [2(xy+wz), 1-2(x²+z²), 2(yz-wx)],
`[2(xz-wy), 2(yz+wx), 1-2(x²+y²)]]`. -/
noncomputable def rotFromQuat (w x y z : ℝ) : Matrix (Fin 3) (Fin 3) ℝ :=
  !![1 - 2*(y*y + z*z), 2*(x*y - w*z), 2*(x*z + w*y);
     2*(x*y + w*z), 1 - 2*(x*x + z*z), 2*(y*z - w*x);
     2*(x*z - w*y), 2*(y*z + w*x), 1 - 2*(x*x + y*y)]

/-- `DataLoader.quaternion_to_rotation_matrix`: compute
`norm = sqrt(w² + x² + y² + z²)`; divide the components by `norm` only when
`norm > 0`; then build the matrix from the (possibly normalized) components. -/
noncomputable def quaternionToRotationMatrix (w x y z : ℝ) : Matrix (Fin 3) (Fin 3) ℝ :=
  let norm := Real.sqrt (w*w + x*x + y*y + z*z)
  if 0 < norm then rotFromQuat (w/norm) (x/norm) (y/norm) (z/norm)
  else rotFromQuat w x y z

lemma quatNormSq_eq_zero {w x y z : ℝ}
    (h : Real.sqrt (w*w + x*x + y*y + z*z) = 0) :
    w = 0 ∧ x = 0 ∧ y = 0 ∧ z = 0 := by
  have hnn : 0 ≤ w*w + x*x + y*y + z*z := by
    nlinarith [mul_self_nonneg w, mul_self_nonneg x, mul_self_nonneg y, mul_self_nonneg z]
  have hsq : w*w + x*x + y*y + z*z = 0 := by
    have := Real.sqrt_eq_zero hnn |>.mp h
    exact this
  refine ⟨?_, ?_, ?_, ?_⟩ <;> nlinarith [sq_nonneg w, sq_nonneg x, sq_nonneg y, sq_nonneg z]

lemma rotFromQuat_zero : rotFromQuat 0 0 0 0 = 1 := by
  unfold rotFromQuat
  ext i j
  fin_cases i <;> fin_cases j <;>
    simp [Matrix.one_apply, Matrix.vecHead, Matrix.vecTail]

/-- C9: `quaternion_to_rotation_matrix` guards the degenerate case — when the
quaternion's magnitude is zero it performs no division and the matrix built
from the zero components is exactly the `3×3` identity; when the magnitude is
positive, the result is the standard quaternion-to-matrix formula applied to
the normalized quaternion, and that normalized quaternion has unit norm. -/
theorem quaternionToRotationMatrix_spec (w x y z : ℝ) :
    (Real.sqrt (w*w + x*x + y*y + z*z) = 0 →
      quaternionToRotationMatrix w x y z = 1) ∧
    (0 < Real.sqrt (w*w + x*x + y*y + z*z) →
      quaternionToRotationMatrix w x y z =
        rotFromQuat (w / Real.sqrt (w*w + x*x + y*y + z*z))
          (x / Real.sqrt (w*w + x*x + y*y + z*z))
          (y / Real.sqrt (w*w + x*x + y*y + z*z))
          (z / Real.sqrt (w*w + x*x + y*y + z*z)) ∧
      (w / Real.sqrt (w*w + x*x + y*y + z*z)) ^ 2 +
        (x / Real.sqrt (w*w + x*x + y*y + z*z)) ^ 2 +
        (y / Real.sqrt (w*w + x*x + y*y + z*z)) ^ 2 +
        (z / Real.sqrt (w*w + x*x + y*y + z*z)) ^ 2 = 1) := by
  constructor
  · intro h0
    obtain ⟨hw, hx, hy, hz⟩ := quatNormSq_eq_zero h0
    unfold quaternionToRotationMatrix
    rw [hw, hx, hy, hz]
    simp only [h0, hw, hx, hy, hz] at *
    rw [if_neg (by simp [h0, hw, hx, hy, hz])]
    exact rotFromQuat_zero
  · intro hpos
    unfold quaternionToRotationMatrix
    rw [if_pos hpos]
    refine ⟨rfl, ?_⟩
    have hne : Real.sqrt (w*w + x*x + y*y + z*z) ≠ 0 := ne_of_gt hpos
    have hsq : Real.sqrt (w*w + x*x + y*y + z*z) ^ 2 = w*w + x*x + y*y + z*z := by
      rw [Real.sq_sqrt]
      nlinarith [mul_self_nonneg w, mul_self_nonneg x, mul_self_nonneg y, mul_self_nonneg z]
    field_simp
    linarith [hsq]

/-- Witness for `quaternionToRotationMatrix_spec`: the zero quaternion yields
the identity matrix and the unit quaternion `(1,0,0,0)` goes through the
normalized formula. -/
theorem quaternionToRotationMatrix_spec_witness :
    quaternionToRotationMatrix 0 0 0 0 = 1 ∧
    quaternionToRotationMatrix 1 0 0 0 =
      rotFromQuat (1 / Real.sqrt (1*1 + 0*0 + 0*0 + 0*0))
        (0 / Real.sqrt (1*1 + 0*0 + 0*0 + 0*0))
        (0 / Real.sqrt (1*1 + 0*0 + 0*0 + 0*0))
        (0 / Real.sqrt (1*1 + 0*0 + 0*0 + 0*0)) :=
  ⟨(quaternionToRotationMatrix_spec 0 0 0 0).1 (by simp),
   ((quaternionToRotationMatrix_spec 1 0 0 0).2 (by simp)).1⟩

/-! ## Geometry registry and visibility state machine

`self.geometries` / `self.hidden_geometries` are Python dicts keyed by entity
name; for visibility we model each as its (insertion-ordered, duplicate-free)
key list. All modelled methods are taken on their `self.vis is not None` path,
and `gui.toggle_point_cloud_visibility` on the path where the frame list is
valid, with the current frame id passed explicitly. -/

/-- Python's `str.startswith`, on the underlying character lists. -/
def strHasPre : List Char → List Char → Bool
  | [], _ => true
  | _ :: _, [] => false
  | a :: ps, b :: ss => a = b && strHasPre ps ss

/-- `s.startswith(pre)`. -/
def pyStartsWith (s pre : String) : Bool := strHasPre pre.data s.data

/-- The visibility-relevant state of `PointCloudVisualizer`: the names of the
currently displayed geometries and of the hidden (restorable) geometries. -/
structure RegState where
  geoms : List String
  hidden : List String

/-- `add_geometry` (name bookkeeping): remove an existing visible entry of the
same name, then store the geometry under `name`; `hidden_geometries` is not
touched. -/
def addGeometry (s : RegState) (name : String) : RegState :=
  { s with geoms := s.geoms.erase name ++ [name] }

/-- `remove_geometry`: drop the name from the visible dict (no-op if absent). -/
def removeGeometry (s : RegState) (name : String) : RegState :=
  { s with geoms := s.geoms.erase name }

/-- `hide_geometry`: when `name` is visible, record it (with its restoration
data) in `hidden_geometries` and remove it from `geometries`; otherwise
return unchanged. -/
def hideGeometry (s : RegState) (name : String) : RegState :=
  if name ∈ s.geoms then
    { geoms := s.geoms.erase name,
      hidden := if name ∈ s.hidden then s.hidden else s.hidden ++ [name] }
  else s

/-- `show_geometry`: when `name` is hidden, re-add it via `add_geometry` and
delete it from `hidden_geometries`; otherwise return unchanged. -/
def showGeometry (s : RegState) (name : String) : RegState :=
  if name ∈ s.hidden then
    { geoms := (addGeometry s name).geoms, hidden := s.hidden.erase name }
  else s

/-- The name filter used by `toggle_point_cloud_type`: for `dense_cloud` an
exact match on `dense_cloud`/`map_dense_cloud`, otherwise the prefixes
`{type}_` and `map_{type}_`. -/
def typeMatches (cloudType : String) (name : String) : Bool :=
  if cloudType = "dense_cloud" then
    name = "dense_cloud" || name = "map_dense_cloud"
  else
    pyStartsWith name (cloudType ++ "_") || pyStartsWith name ("map_" ++ cloudType ++ "_")

/-- `toggle_point_cloud_type`: collect the matching visible and hidden names;
hide all visible ones (returning `False`), else show all hidden ones
(returning `True`), else do nothing (returning `False`). -/
def togglePointCloudType (s : RegState) (cloudType : String) : RegState × Bool :=
  let visibleNames := s.geoms.filter (typeMatches cloudType)
  let hiddenNames := s.hidden.filter (typeMatches cloudType)
  if visibleNames ≠ [] then (visibleNames.foldl hideGeometry s, false)
  else if hiddenNames ≠ [] then (hiddenNames.foldl showGeometry s, true)
  else (s, false)

/-- The name prefix `transformed_cloud_{frame_id}_T_opt_w_b_` used by
`gui._toggle_transformed_clouds` (the transform name is hardcoded to
`T_opt_w_b`, the only transform under which derived clouds are created). -/
def transPre (frameId : ℤ) : String :=
  "transformed_cloud_" ++ toString frameId ++ "_T_opt_w_b_"

/-- `name[len(prefix):]`. -/
def strDropLen (s : String) (k : ℕ) : String := String.mk (s.data.drop k)

/-- The transformed-cloud filter of `gui._toggle_transformed_clouds`: the name
starts with the frame's transformed prefix and its file stem matches the
cloud type (`dense_cloud` exactly, else the `{type}_` stem prefix). -/
def transformedMatches (frameId : ℤ) (cloudType : String) (name : String) : Bool :=
  pyStartsWith name (transPre frameId) &&
    (let fileStem := strDropLen name (transPre frameId).length
     if cloudType = "dense_cloud" then fileStem = "dense_cloud"
     else pyStartsWith fileStem (cloudType ++ "_"))

/-- `gui._toggle_transformed_clouds`: collect the matching transformed names
from both dicts; show the hidden ones when `is_visible`, else hide the
visible ones. -/
def toggleTransformedClouds (s : RegState) (cloudType : String) (frameId : ℤ)
    (isVisible : Bool) : RegState :=
  let transformedNames :=
    s.geoms.filter (transformedMatches frameId cloudType)
      ++ s.hidden.filter (transformedMatches frameId cloudType)
  transformedNames.foldl
    (fun st n =>
      if isVisible then (if n ∈ st.hidden then showGeometry st n else st)
      else (if n ∈ st.geoms then hideGeometry st n else st)) s

/-- `gui.toggle_point_cloud_visibility`: toggle the raw clouds, then bring the
frame's transformed clouds to the same visibility. -/
def togglePointCloudVisibility (s : RegState) (cloudType : String) (frameId : ℤ) :
    RegState × Bool :=
  let r := togglePointCloudType s cloudType
  (toggleTransformedClouds r.1 cloudType frameId r.2, r.2)

/-! ### Elementary membership lemmas for the registry operations -/

lemma hideGeometry_not_mem {s : RegState} {n : String} (h : n ∉ s.geoms) :
    hideGeometry s n = s := if_neg h

lemma hideGeometry_geoms_mem {s : RegState} {n : String} (h : n ∈ s.geoms)
    (hg : s.geoms.Nodup) (x : String) :
    x ∈ (hideGeometry s n).geoms ↔ x ∈ s.geoms ∧ x ≠ n := by
  unfold hideGeometry
  rw [if_pos h]
  exact ⟨fun hx => ⟨List.mem_of_mem_erase hx, (List.Nodup.mem_erase_iff hg).mp hx |>.1⟩,
    fun ⟨hx, hne⟩ => List.mem_erase_of_ne hne |>.mpr hx⟩

lemma hideGeometry_hidden_mem {s : RegState} {n : String} (h : n ∈ s.geoms) (x : String) :
    x ∈ (hideGeometry s n).hidden ↔ x ∈ s.hidden ∨ x = n := by
  unfold hideGeometry
  rw [if_pos h]
  by_cases hn : n ∈ s.hidden
  · rw [if_pos hn]
    constructor
    · exact Or.inl
    · rintro (hx | rfl)
      · exact hx
      · exact hn
  · rw [if_neg hn]
    simp [List.mem_append]

lemma hideGeometry_nodup {s : RegState} {n : String}
    (hg : s.geoms.Nodup) (hh : s.hidden.Nodup) :
    (hideGeometry s n).geoms.Nodup ∧ (hideGeometry s n).hidden.Nodup := by
  unfold hideGeometry
  by_cases h1 : n ∈ s.geoms
  · rw [if_pos h1]
    by_cases h2 : n ∈ s.hidden
    · rw [if_pos h2]
      exact ⟨hg.erase n, hh⟩
    · rw [if_neg h2]
      exact ⟨hg.erase n, List.Nodup.append hh (List.nodup_singleton n)
        (by simp [List.disjoint_singleton, h2])⟩
  · rw [if_neg h1]
    exact ⟨hg, hh⟩

lemma showGeometry_not_mem {s : RegState} {n : String} (h : n ∉ s.hidden) :
    showGeometry s n = s := if_neg h

lemma showGeometry_geoms_mem {s : RegState} {n : String} (h : n ∈ s.hidden) (x : String) :
    x ∈ (showGeometry s n).geoms ↔ x ∈ s.geoms ∨ x = n := by
  unfold showGeometry addGeometry
  rw [if_pos h]
  dsimp only
  rw [List.mem_append]
  constructor
  · rintro (hx | hx)
    · exact Or.inl (List.mem_of_mem_erase hx)
    · exact Or.inr (List.mem_singleton.mp hx)
  · rintro (hx | rfl)
    · by_cases hxn : x = n
      · subst hxn
        exact Or.inr (List.mem_singleton.mpr rfl)
      · exact Or.inl (List.mem_erase_of_ne hxn |>.mpr hx)
    · exact Or.inr (List.mem_singleton.mpr rfl)

lemma showGeometry_hidden_mem {s : RegState} {n : String} (h : n ∈ s.hidden)
    (hh : s.hidden.Nodup) (x : String) :
    x ∈ (showGeometry s n).hidden ↔ x ∈ s.hidden ∧ x ≠ n := by
  unfold showGeometry
  rw [if_pos h]
  exact ⟨fun hx => ⟨List.mem_of_mem_erase hx, (List.Nodup.mem_erase_iff hh).mp hx |>.1⟩,
    fun ⟨hx, hne⟩ => List.mem_erase_of_ne hne |>.mpr hx⟩

lemma showGeometry_nodup {s : RegState} {n : String}
    (hg : s.geoms.Nodup) (hh : s.hidden.Nodup) :
    (showGeometry s n).geoms.Nodup ∧ (showGeometry s n).hidden.Nodup := by
  unfold showGeometry addGeometry
  split_ifs with h1
  · constructor
    · dsimp only
      refine List.Nodup.append (hg.erase n) (List.nodup_singleton n) ?_
      simp only [List.disjoint_singleton]
      exact fun hc => ((List.Nodup.mem_erase_iff hg).mp hc).1 rfl
    · exact hh.erase n
  · exact ⟨hg, hh⟩

lemma addGeometry_geoms_mem (s : RegState) (n x : String) :
    x ∈ (addGeometry s n).geoms ↔ x ∈ s.geoms ∨ x = n := by
  unfold addGeometry
  dsimp only
  rw [List.mem_append]
  constructor
  · rintro (hx | hx)
    · exact Or.inl (List.mem_of_mem_erase hx)
    · exact Or.inr (List.mem_singleton.mp hx)
  · rintro (hx | rfl)
    · by_cases hxn : x = n
      · subst hxn
        exact Or.inr (List.mem_singleton.mpr rfl)
      · exact Or.inl (List.mem_erase_of_ne hxn |>.mpr hx)
    · exact Or.inr (List.mem_singleton.mpr rfl)

lemma hideGeometry_geoms_nodup {s : RegState} {n : String} (hg : s.geoms.Nodup) :
    (hideGeometry s n).geoms.Nodup := by
  unfold hideGeometry
  by_cases h1 : n ∈ s.geoms
  · rw [if_pos h1]
    exact hg.erase n
  · rw [if_neg h1]
    exact hg

lemma showGeometry_hidden_nodup {s : RegState} {n : String} (hh : s.hidden.Nodup) :
    (showGeometry s n).hidden.Nodup := by
  unfold showGeometry
  by_cases h1 : n ∈ s.hidden
  · rw [if_pos h1]
    exact hh.erase n
  · rw [if_neg h1]
    exact hh

lemma foldl_hide_geoms_mem (l : List String) (s : RegState)
    (hg : s.geoms.Nodup) (x : String) :
    x ∈ (l.foldl hideGeometry s).geoms ↔ x ∈ s.geoms ∧ x ∉ l := by
  induction l generalizing s with
  | nil => simp
  | cons a t ih =>
    rw [List.foldl_cons, ih _ (hideGeometry_geoms_nodup hg)]
    by_cases ha : a ∈ s.geoms
    · rw [hideGeometry_geoms_mem ha hg x]
      simp only [List.mem_cons]
      constructor
      · rintro ⟨⟨hx, hne⟩, hnt⟩
        exact ⟨hx, fun hc => hc.elim hne hnt⟩
      · rintro ⟨hx, hn⟩
        exact ⟨⟨hx, fun he => hn (Or.inl he)⟩, fun ht => hn (Or.inr ht)⟩
    · rw [hideGeometry_not_mem ha]
      simp only [List.mem_cons]
      constructor
      · rintro ⟨hx, hnt⟩
        refine ⟨hx, fun hc => ?_⟩
        rcases hc with he | ht
        · exact ha (he ▸ hx)
        · exact hnt ht
      · rintro ⟨hx, hn⟩
        exact ⟨hx, fun ht => hn (Or.inr ht)⟩

lemma foldl_hide_hidden_mem (l : List String) (s : RegState)
    (hg : s.geoms.Nodup) (hl : ∀ a ∈ l, a ∈ s.geoms) (hnd : l.Nodup) (x : String) :
    x ∈ (l.foldl hideGeometry s).hidden ↔ x ∈ s.hidden ∨ x ∈ l := by
  induction l generalizing s with
  | nil => simp
  | cons a t ih =>
    have ha : a ∈ s.geoms := hl a (List.mem_cons_self a t)
    rw [List.foldl_cons]
    rw [ih _ (hideGeometry_geoms_nodup hg) ?_ hnd.of_cons]
    · rw [hideGeometry_hidden_mem ha x]
      simp only [List.mem_cons]
      tauto
    · intro b hb
      rw [hideGeometry_geoms_mem ha hg b]
      exact ⟨hl b (List.mem_cons_of_mem a hb),
        fun he => (List.nodup_cons.mp hnd).1 (he ▸ hb)⟩

lemma foldl_hide_nodup (l : List String) (s : RegState)
    (hg : s.geoms.Nodup) (hh : s.hidden.Nodup) :
    (l.foldl hideGeometry s).geoms.Nodup ∧ (l.foldl hideGeometry s).hidden.Nodup := by
  induction l generalizing s with
  | nil => exact ⟨hg, hh⟩
  | cons a t ih =>
    rw [List.foldl_cons]
    obtain ⟨h1, h2⟩ := hideGeometry_nodup hg hh (n := a)
    exact ih _ h1 h2

lemma foldl_show_geoms_mem (l : List String) (s : RegState)
    (hh : s.hidden.Nodup) (x : String) :
    x ∈ (l.foldl showGeometry s).geoms ↔
      x ∈ s.geoms ∨ (x ∈ l ∧ x ∈ s.hidden) := by
  induction l generalizing s with
  | nil => simp
  | cons a t ih =>
    rw [List.foldl_cons, ih _ (showGeometry_hidden_nodup hh)]
    by_cases ha : a ∈ s.hidden
    · rw [showGeometry_geoms_mem ha x]
      simp only [List.mem_cons]
      constructor
      · rintro ((hx | rfl) | ⟨ht, hhid⟩)
        · exact Or.inl hx
        · exact Or.inr ⟨Or.inl rfl, ha⟩
        · rw [showGeometry_hidden_mem ha hh x] at hhid
          exact Or.inr ⟨Or.inr ht, hhid.1⟩
      · rintro (hx | ⟨(rfl | ht), hhid⟩)
        · exact Or.inl (Or.inl hx)
        · exact Or.inl (Or.inr rfl)
        · by_cases hxa : x = a
          · exact Or.inl (Or.inr hxa)
          · refine Or.inr ⟨ht, ?_⟩
            rw [showGeometry_hidden_mem ha hh x]
            exact ⟨hhid, hxa⟩
    · rw [showGeometry_not_mem ha]
      simp only [List.mem_cons]
      constructor
      · rintro (hx | ⟨ht, hhid⟩)
        · exact Or.inl hx
        · exact Or.inr ⟨Or.inr ht, hhid⟩
      · rintro (hx | ⟨(rfl | ht), hhid⟩)
        · exact Or.inl hx
        · exact absurd hhid ha
        · exact Or.inr ⟨ht, hhid⟩

lemma foldl_show_hidden_mem (l : List String) (s : RegState)
    (hh : s.hidden.Nodup) (x : String) :
    x ∈ (l.foldl showGeometry s).hidden ↔ x ∈ s.hidden ∧ x ∉ l := by
  induction l generalizing s with
  | nil => simp
  | cons a t ih =>
    rw [List.foldl_cons, ih _ (showGeometry_hidden_nodup hh)]
    by_cases ha : a ∈ s.hidden
    · rw [showGeometry_hidden_mem ha hh x]
      simp only [List.mem_cons]
      constructor
      · rintro ⟨⟨hx, hne⟩, hnt⟩
        exact ⟨hx, fun hc => hc.elim hne hnt⟩
      · rintro ⟨hx, hn⟩
        exact ⟨⟨hx, fun he => hn (Or.inl he)⟩, fun ht => hn (Or.inr ht)⟩
    · rw [showGeometry_not_mem ha]
      simp only [List.mem_cons]
      constructor
      · rintro ⟨hx, hnt⟩
        refine ⟨hx, fun hc => ?_⟩
        rcases hc with he | ht
        · exact ha (he ▸ hx)
        · exact hnt ht
      · rintro ⟨hx, hn⟩
        exact ⟨hx, fun ht => hn (Or.inr ht)⟩

lemma foldl_show_nodup (l : List String) (s : RegState)
    (hg : s.geoms.Nodup) (hh : s.hidden.Nodup) :
    (l.foldl showGeometry s).geoms.Nodup ∧ (l.foldl showGeometry s).hidden.Nodup := by
  induction l generalizing s with
  | nil => exact ⟨hg, hh⟩
  | cons a t ih =>
    rw [List.foldl_cons]
    obtain ⟨h1, h2⟩ := showGeometry_nodup hg hh (n := a)
    exact ih _ h1 h2

lemma foldl_congr_fun {f g : RegState → String → RegState}
    (h : ∀ st n, f st n = g st n) (l : List String) (s : RegState) :
    l.foldl f s = l.foldl g s := by
  induction l generalizing s with
  | nil => rfl
  | cons a t ih => rw [List.foldl_cons, List.foldl_cons, h, ih]

lemma toggleTransformedClouds_true (s : RegState) (cloudType : String) (frameId : ℤ) :
    toggleTransformedClouds s cloudType frameId true =
      (s.geoms.filter (transformedMatches frameId cloudType)
        ++ s.hidden.filter (transformedMatches frameId cloudType)).foldl showGeometry s := by
  simp only [toggleTransformedClouds]
  apply foldl_congr_fun
  intro st n
  simp only [if_true]
  by_cases h : n ∈ st.hidden
  · rw [if_pos h]
  · rw [if_neg h, showGeometry_not_mem h]

lemma toggleTransformedClouds_false (s : RegState) (cloudType : String) (frameId : ℤ) :
    toggleTransformedClouds s cloudType frameId false =
      (s.geoms.filter (transformedMatches frameId cloudType)
        ++ s.hidden.filter (transformedMatches frameId cloudType)).foldl hideGeometry s := by
  simp only [toggleTransformedClouds]
  apply foldl_congr_fun
  intro st n
  simp only [Bool.false_eq_true, if_false]
  by_cases h : n ∈ st.geoms
  · rw [if_pos h]
  · rw [if_neg h, hideGeometry_not_mem h]

/-! ### C5: the visible/hidden-set exclusivity invariant -/

/-- Each entity name is in at most one of the visible and hidden sets. -/
def inAtMostOneSet (s : RegState) : Prop := ∀ n, ¬(n ∈ s.geoms ∧ n ∈ s.hidden)

/-- C5 counterexample: registering (`add_geometry`) a name that is currently
hidden leaves it present in *both* the visible and the hidden set, because
`add_geometry` never deletes the name from `hidden_geometries`: after
`add "x"; hide "x"; add "x"` the name `"x"` is in both dicts. -/
theorem registry_both_sets_cex :
    "x" ∈ (addGeometry (hideGeometry (addGeometry ⟨[], []⟩ "x") "x") "x").geoms ∧
    "x" ∈ (addGeometry (hideGeometry (addGeometry ⟨[], []⟩ "x") "x") "x").hidden := by
  decide

/-- C5 (amended): in every state satisfying the at-most-one-set invariant,
`hide`, `show`, `remove` and `toggle_point_cloud_type` preserve the invariant,
and `add_geometry` preserves it *provided the added name is not currently
hidden* — registering a currently-hidden name breaks it (see the
counterexample). -/
theorem registry_invariant_preserved (s : RegState) (name cloudType : String)
    (hg : s.geoms.Nodup) (hh : s.hidden.Nodup) (hinv : inAtMostOneSet s) :
    inAtMostOneSet (hideGeometry s name) ∧
    inAtMostOneSet (showGeometry s name) ∧
    inAtMostOneSet (removeGeometry s name) ∧
    (name ∉ s.hidden → inAtMostOneSet (addGeometry s name)) ∧
    inAtMostOneSet (togglePointCloudType s cloudType).1 := by
  refine ⟨?_, ?_, ?_, ?_, ?_⟩
  · by_cases hm : name ∈ s.geoms
    · intro x hx
      obtain ⟨hx1, hx2⟩ := hx
      rw [hideGeometry_geoms_mem hm hg x] at hx1
      rw [hideGeometry_hidden_mem hm x] at hx2
      rcases hx2 with hx2 | rfl
      · exact hinv x ⟨hx1.1, hx2⟩
      · exact hx1.2 rfl
    · rw [hideGeometry_not_mem hm]
      exact hinv
  · by_cases hm : name ∈ s.hidden
    · intro x hx
      obtain ⟨hx1, hx2⟩ := hx
      rw [showGeometry_geoms_mem hm x] at hx1
      rw [showGeometry_hidden_mem hm hh x] at hx2
      rcases hx1 with hx1 | rfl
      · exact hinv x ⟨hx1, hx2.1⟩
      · exact hx2.2 rfl
    · rw [showGeometry_not_mem hm]
      exact hinv
  · intro x hx
    exact hinv x ⟨List.mem_of_mem_erase hx.1, hx.2⟩
  · intro hnh x hx
    obtain ⟨hx1, hx2⟩ := hx
    rw [addGeometry_geoms_mem s name x] at hx1
    rcases hx1 with hx1 | rfl
    · exact hinv x ⟨hx1, hx2⟩
    · exact hnh hx2
  · simp only [togglePointCloudType]
    split_ifs with h1 h2
    · intro x hx
      obtain ⟨hx1, hx2⟩ := hx
      rw [foldl_hide_geoms_mem _ _ hg x] at hx1
      rw [foldl_hide_hidden_mem _ _ hg
        (fun a ha => List.mem_of_mem_filter ha) (hg.filter _) x] at hx2
      rcases hx2 with hx2 | hx2
      · exact hinv x ⟨hx1.1, hx2⟩
      · exact hx1.2 hx2
    · intro x hx
      obtain ⟨hx1, hx2⟩ := hx
      rw [foldl_show_geoms_mem _ _ hh x] at hx1
      rw [foldl_show_hidden_mem _ _ hh x] at hx2
      rcases hx1 with hx1 | hx1
      · exact hinv x ⟨hx1, hx2.1⟩
      · exact hx2.2 hx1.1
    · exact hinv

/-- Witness for `registry_invariant_preserved` at a concrete one-entity state. -/
theorem registry_invariant_preserved_witness :
    inAtMostOneSet (hideGeometry ⟨["plane_0"], []⟩ "plane_0") ∧
    inAtMostOneSet (showGeometry ⟨["plane_0"], []⟩ "plane_0") ∧
    inAtMostOneSet (removeGeometry ⟨["plane_0"], []⟩ "plane_0") ∧
    ("plane_0" ∉ (⟨["plane_0"], []⟩ : RegState).hidden →
      inAtMostOneSet (addGeometry ⟨["plane_0"], []⟩ "plane_0")) ∧
    inAtMostOneSet (togglePointCloudType ⟨["plane_0"], []⟩ "plane").1 :=
  registry_invariant_preserved ⟨["plane_0"], []⟩ "plane_0" "plane"
    (by decide) (by decide)
    (fun n hn => absurd hn.2 (List.not_mem_nil n))

/-! ### C10: toggling a kind with nothing to toggle -/

/-- C10: when no entity of the requested kind exists in either the visible or
the hidden set, `toggle_point_cloud_type` is a no-op on the whole state and
returns `False`; and `False` is also what it returns right after hiding
visible entities of the kind — so a `False` return does not distinguish
"now hidden" from "nothing to toggle". -/
theorem togglePointCloudType_empty_spec (s : RegState) (cloudType : String) :
    (s.geoms.filter (typeMatches cloudType) = [] →
      s.hidden.filter (typeMatches cloudType) = [] →
      togglePointCloudType s cloudType = (s, false)) ∧
    (s.geoms.filter (typeMatches cloudType) ≠ [] →
      (togglePointCloudType s cloudType).2 = false) := by
  constructor
  · intro h1 h2
    simp only [togglePointCloudType, h1, h2]
    simp
  · intro h1
    simp only [togglePointCloudType]
    rw [if_pos h1]

/-- Witness for `togglePointCloudType_empty_spec`: a state with no ground
entity anywhere (no-op, `False`) and a state with a visible ground entity
(hidden, also `False`). -/
theorem togglePointCloudType_empty_spec_witness :
    togglePointCloudType ⟨["plane_0"], []⟩ "ground" = (⟨["plane_0"], []⟩, false) ∧
    (togglePointCloudType ⟨["ground_2"], []⟩ "ground").2 = false :=
  ⟨(togglePointCloudType_empty_spec ⟨["plane_0"], []⟩ "ground").1 (by decide) (by decide),
   (togglePointCloudType_empty_spec ⟨["ground_2"], []⟩ "ground").2 (by decide)⟩

/-! ### C2: synchronized toggling of raw and transformed representations -/

/-- C2: after `gui.toggle_point_cloud_visibility(kind)`, every entity of the
kind — frame-role (`{kind}_{id}`), map-role (`map_{kind}_{id}`) and derived
transformed-role (`transformed_cloud_{frame_id}_T_opt_w_b_{kind}[_{id}]`) —
is visible exactly when the operation returned `True`; in particular every
transformed entity of the kind and frame has the same visibility as every
frame-role and map-role entity of the kind. -/
theorem togglePointCloudVisibility_sync (s : RegState) (cloudType : String)
    (frameId : ℤ) (hg : s.geoms.Nodup) (hh : s.hidden.Nodup) (name : String)
    (hmatch : typeMatches cloudType name = true ∨
      transformedMatches frameId cloudType name = true)
    (hentity : name ∈ (togglePointCloudVisibility s cloudType frameId).1.geoms ∨
      name ∈ (togglePointCloudVisibility s cloudType frameId).1.hidden) :
    (name ∈ (togglePointCloudVisibility s cloudType frameId).1.geoms ↔
      (togglePointCloudVisibility s cloudType frameId).2 = true) := by
  by_cases hv : s.geoms.filter (typeMatches cloudType) = []
  · by_cases hhid : s.hidden.filter (typeMatches cloudType) = []
    · -- nothing of the kind among raw clouds: b = false, transformed get hidden
      have hA : togglePointCloudType s cloudType = (s, false) := by
        simp only [togglePointCloudType, hv, hhid]
        simp
      have hB : togglePointCloudVisibility s cloudType frameId =
          (toggleTransformedClouds s cloudType frameId false, false) := by
        simp only [togglePointCloudVisibility, hA]
      rw [hB] at hentity ⊢
      simp only [Bool.false_eq_true, iff_false]
      intro hmem
      rw [toggleTransformedClouds_false, foldl_hide_geoms_mem _ _ hg name] at hmem
      obtain ⟨hmem1, hmem2⟩ := hmem
      rcases hmatch with hp | htp
      · have : name ∈ s.geoms.filter (typeMatches cloudType) :=
          List.mem_filter.mpr ⟨hmem1, hp⟩
        rw [hv] at this
        exact absurd this (List.not_mem_nil name)
      · exact hmem2 (List.mem_append.mpr (Or.inl (List.mem_filter.mpr ⟨hmem1, htp⟩)))
    · -- hidden raw clouds of the kind get shown: b = true, everything visible
      have hA : togglePointCloudType s cloudType =
          ((s.hidden.filter (typeMatches cloudType)).foldl showGeometry s, true) := by
        simp only [togglePointCloudType, hv]
        simp [hhid]
      have hB : togglePointCloudVisibility s cloudType frameId =
          (toggleTransformedClouds
            ((s.hidden.filter (typeMatches cloudType)).foldl showGeometry s)
            cloudType frameId true, true) := by
        simp only [togglePointCloudVisibility, hA]
      have hs1h : ((s.hidden.filter (typeMatches cloudType)).foldl showGeometry s).hidden.Nodup :=
        (foldl_show_nodup _ _ hg hh).2
      rw [hB] at hentity ⊢
      simp only [iff_true]
      rcases hentity with hmem | hmem
      · exact hmem
      · exfalso
        rw [toggleTransformedClouds_true, foldl_show_hidden_mem _ _ hs1h name] at hmem
        obtain ⟨hmem1, hmem2⟩ := hmem
        have hmem1' := hmem1
        rw [foldl_show_hidden_mem _ _ hh name] at hmem1'
        rcases hmatch with hp | htp
        · exact hmem1'.2 (List.mem_filter.mpr ⟨hmem1'.1, hp⟩)
        · exact hmem2 (List.mem_append.mpr (Or.inr (List.mem_filter.mpr ⟨hmem1, htp⟩)))
  · -- visible raw clouds of the kind get hidden: b = false, everything hidden
    have hA : togglePointCloudType s cloudType =
        ((s.geoms.filter (typeMatches cloudType)).foldl hideGeometry s, false) := by
      simp only [togglePointCloudType]
      rw [if_pos hv]
    have hB : togglePointCloudVisibility s cloudType frameId =
        (toggleTransformedClouds
          ((s.geoms.filter (typeMatches cloudType)).foldl hideGeometry s)
          cloudType frameId false, false) := by
      simp only [togglePointCloudVisibility, hA]
    have hs1g : ((s.geoms.filter (typeMatches cloudType)).foldl hideGeometry s).geoms.Nodup :=
      (foldl_hide_nodup _ _ hg hh).1
    rw [hB] at hentity ⊢
    simp only [Bool.false_eq_true, iff_false]
    intro hmem
    rw [toggleTransformedClouds_false, foldl_hide_geoms_mem _ _ hs1g name] at hmem
    obtain ⟨hmem1, hmem2⟩ := hmem
    have hmem1' := hmem1
    rw [foldl_hide_geoms_mem _ _ hg name] at hmem1'
    rcases hmatch with hp | htp
    · exact hmem1'.2 (List.mem_filter.mpr ⟨hmem1'.1, hp⟩)
    · exact hmem2 (List.mem_append.mpr (Or.inl (List.mem_filter.mpr ⟨hmem1, htp⟩)))

/-- Witness for `togglePointCloudVisibility_sync`: toggling `plane` on a state
with visible plane entities and a hidden derived transformed plane cloud —
the transformed cloud ends with the same (hidden) visibility as the planes. -/
theorem togglePointCloudVisibility_sync_witness :
    ("transformed_cloud_1_T_opt_w_b_plane_2" ∈
        (togglePointCloudVisibility
          ⟨["plane_2", "map_plane_5"], ["transformed_cloud_1_T_opt_w_b_plane_2"]⟩
          "plane" 1).1.geoms ↔
      (togglePointCloudVisibility
        ⟨["plane_2", "map_plane_5"], ["transformed_cloud_1_T_opt_w_b_plane_2"]⟩
        "plane" 1).2 = true) :=
  togglePointCloudVisibility_sync
    ⟨["plane_2", "map_plane_5"], ["transformed_cloud_1_T_opt_w_b_plane_2"]⟩
    "plane" 1 (by decide) (by decide) "transformed_cloud_1_T_opt_w_b_plane_2"
    (Or.inr (by decide)) (Or.inr (by decide))

/-! ## `load_and_display_frame`: match-propagated coloring for frames ≥ 1

The plane/ground color pipeline of `load_and_display_frame` for
`frame_id ≥ 1` with `frame_type == FRAME`, abstracted over the entity ids the
data source yields. Python dicts keyed by integers are modelled as
insertion-ordered association lists (`dictInsert` updates an existing key in
place, else appends; `dictLookup` finds the unique binding). -/

/-- One entry of `plane_match_infos` after `extract_id_from_obj`: the pair
forms `cur_id = (a=cur_type, b=cur_id)` and `other_id = (a, b=other_id)`.
`cur_type = 1` is a plane, `2` is ground; a match is valid iff
`other_id ≥ 0`. -/
structure PlanarMatch where
  curType : ℤ
  curId : ℤ
  otherId : ℤ
deriving DecidableEq

/-- Python dict assignment `d[k] = v`: update in place if present, else append. -/
def dictInsert {α : Type} (d : List (ℤ × α)) (k : ℤ) (v : α) : List (ℤ × α) :=
  if d.any (fun p => p.1 = k) then
    d.map (fun p => if p.1 = k then (k, v) else p)
  else d ++ [(k, v)]

/-- Python dict lookup `d[k]` / `k in d`. -/
def dictLookup {α : Type} (d : List (ℤ × α)) (k : ℤ) : Option α :=
  (d.find? (fun p => p.1 = k)).map Prod.snd

/-- The match-parsing loop of `load_and_display_frame` step 3: skip matches
with `other_id < 0`; store plane matches (`cur_type == 1`) in
`match_mapping_plane` and ground matches (`cur_type == 2`) in
`match_mapping_ground`, keyed by `cur_id`. Returns
`(match_mapping_ground, match_mapping_plane)`. -/
def buildMatchMappings (ms : List PlanarMatch) : List (ℤ × ℤ) × List (ℤ × ℤ) :=
  ms.foldl
    (fun acc mt =>
      if mt.otherId < 0 then acc
      else if mt.curType = 1 then (acc.1, dictInsert acc.2 mt.curId mt.otherId)
      else if mt.curType = 2 then (dictInsert acc.1 mt.curId mt.otherId, acc.2)
      else acc)
    ([], [])

/-- The valid plane matches, in order: `other_id ≥ 0` and `cur_type == 1`. -/
def validPlaneMatches (ms : List PlanarMatch) : List PlanarMatch :=
  ms.filter (fun mt => ¬(mt.otherId < 0) ∧ mt.curType = 1)

/-- The color table `transformed_frame_id_to_color_{ground,plane}` built while
displaying the frame's entities: each entity id is assigned
`get_color_by_id(id)` (both by `_load_and_display_transformed_frame_clouds`
and by the missing-transform fallback loop). -/
def colorTable (ids : List ℤ) : List (ℤ × Color) :=
  ids.foldl (fun acc i => dictInsert acc i (getColorById i)) []

/-- One iteration of the propagation loops
`for cur_id, other_id in match_mapping_*.items(): if cur_id in table:
map_id_to_color[other_id] = table[cur_id]`. -/
def propagateStep (table : List (ℤ × Color)) (acc : List (ℤ × Color))
    (p : ℤ × ℤ) : List (ℤ × Color) :=
  match dictLookup table p.1 with
  | some col => dictInsert acc p.2 col
  | none => acc

/-- `map_id_to_color`: propagate the ground matches first, then the plane
matches, into one shared dict. -/
def buildMapIdToColor (tg tp : List (ℤ × Color)) (mg mp : List (ℤ × ℤ)) :
    List (ℤ × Color) :=
  mp.foldl (propagateStep tp) (mg.foldl (propagateStep tg) [])

/-- `[max(0.0, min(1.0, c)) for c in color]` / `np.clip(color, 0, 1)`. -/
def pyClamp01 (c : Color) : Color :=
  (max 0 (min 1 c.1), max 0 (min 1 c.2.1), max 0 (min 1 c.2.2))

/-- The map-entity color choice of `_display_point_clouds` with
`prefix == "map_"`: the propagated color when the id is matched, else the
reserved pure red. -/
def mapEntityColor (mapIdToColor : List (ℤ × Color)) (fileId : ℤ) : Color :=
  (dictLookup mapIdToColor fileId).getD redColor

/-- The inputs `load_and_display_frame` pulls from the data source for one
frame with `frame_id ≥ 1` and `frame_type == FRAME`: whether `debug.txt`
provides `T_opt_w_b`, the frame-role ground/plane entity ids, the parsed
`plane_match_infos` (or `None`), and the map-role ground/plane entity ids. -/
structure FrameInput where
  hasTransform : Bool
  frameGroundIds : List ℤ
  framePlaneIds : List ℤ
  planeMatches : Option (List PlanarMatch)
  mapGroundIds : List ℤ
  mapPlaneIds : List ℤ

/-- What one `load_and_display_frame` call displays (plane/ground entities and
their colors, keyed by entity id within each role) and logs. -/
structure FrameOutcome where
  warnedMissingTransform : Bool
  transformedGroundColors : List (ℤ × Color)
  transformedPlaneColors : List (ℤ × Color)
  frameGroundColors : List (ℤ × Color)
  framePlaneColors : List (ℤ × Color)
  mapGroundColors : List (ℤ × Color)
  mapPlaneColors : List (ℤ × Color)
  rendered : Bool

/-- `load_and_display_frame` for `frame_id ≥ 1`, `frame_type == FRAME`:
step 2 displays either the transformed clouds (id-palette colors) or — when
`T_opt_w_b` is missing — the raw frame clouds (id-palette colors), recording
the same id→color tables in both branches; step 3 parses the matches and
propagates the recorded colors to `map_id_to_color`; step 4 displays the map
entities, matched ids with the propagated color and the rest in pure red.
All explicit entity colors pass through `add_geometry`'s `np.clip`.
`parsedMappings` is step 3's guard: with no `match.json` (`match_info` falsy)
both match mappings stay empty. -/
def parsedMappings : Option (List PlanarMatch) → List (ℤ × ℤ) × List (ℤ × ℤ)
  | some ms => buildMatchMappings ms
  | none => ([], [])

/-- The `map_id_to_color` dict of one `load_and_display_frame` call: both the
transformed branch and the missing-transform fallback record
`get_color_by_id(id)` per displayed frame ground/plane id, and step 3
propagates along the parsed ground then plane match mappings. -/
def frameMapIdToColor (inp : FrameInput) : List (ℤ × Color) :=
  buildMapIdToColor (colorTable inp.frameGroundIds) (colorTable inp.framePlaneIds)
    (parsedMappings inp.planeMatches).1 (parsedMappings inp.planeMatches).2

/-- See `parsedMappings`; this is the body of `load_and_display_frame` for
`frame_id ≥ 1` and `frame_type == FRAME`. -/
def displayFrame (inp : FrameInput) : FrameOutcome :=
  { warnedMissingTransform := !inp.hasTransform
    transformedGroundColors :=
      if inp.hasTransform then
        inp.frameGroundIds.map (fun i => (i, pyClamp01 (getColorById i)))
      else []
    transformedPlaneColors :=
      if inp.hasTransform then
        inp.framePlaneIds.map (fun i => (i, pyClamp01 (getColorById i)))
      else []
    frameGroundColors :=
      if inp.hasTransform then []
      else inp.frameGroundIds.map (fun i => (i, pyClamp01 (getColorById i)))
    framePlaneColors :=
      if inp.hasTransform then []
      else inp.framePlaneIds.map (fun i => (i, pyClamp01 (getColorById i)))
    mapGroundColors :=
      inp.mapGroundIds.map
        (fun i => (i, pyClamp01 (mapEntityColor (frameMapIdToColor inp) i)))
    mapPlaneColors :=
      inp.mapPlaneIds.map
        (fun i => (i, pyClamp01 (mapEntityColor (frameMapIdToColor inp) i)))
    rendered := true }

/-! ### Association-list dictionary lemmas -/

lemma dictInsert_fresh {α : Type} (d : List (ℤ × α)) (k : ℤ) (v : α)
    (h : ∀ p ∈ d, p.1 ≠ k) : dictInsert d k v = d ++ [(k, v)] := by
  unfold dictInsert
  rw [if_neg]
  simp only [List.any_eq_true, decide_eq_true_eq, not_exists, not_and]
  exact h

lemma mem_dictInsert {α : Type} (d : List (ℤ × α)) (k : ℤ) (v : α) (p : ℤ × α)
    (hp : p ∈ dictInsert d k v) : p = (k, v) ∨ p ∈ d := by
  unfold dictInsert at hp
  by_cases hany : d.any (fun p => p.1 = k) = true
  · rw [if_pos hany] at hp
    rcases List.mem_map.mp hp with ⟨q, hq, he⟩
    by_cases hqk : q.1 = k
    · rw [if_pos hqk] at he
      exact Or.inl he.symm
    · rw [if_neg hqk] at he
      exact Or.inr (he ▸ hq)
  · rw [if_neg hany] at hp
    rcases List.mem_append.mp hp with h1 | h1
    · exact Or.inr h1
    · exact Or.inl (List.mem_singleton.mp h1)

lemma findMapUpdate {α : Type} (t : List (ℤ × α)) (k : ℤ) (v : α) (k' : ℤ)
    (hne : k' ≠ k) :
    (t.map (fun p => if p.1 = k then (k, v) else p)).find? (fun p => p.1 = k')
      = t.find? (fun p => p.1 = k') := by
  induction t with
  | nil => rfl
  | cons a t ih =>
    rw [List.map_cons]
    by_cases hak : a.1 = k
    · rw [if_pos hak]
      rw [List.find?_cons_of_neg _ (by simp only [decide_eq_true_eq]; exact fun h => hne h.symm)]
      rw [List.find?_cons_of_neg _ (by
        simp only [decide_eq_true_eq, hak]
        exact fun h => hne h.symm)]
      exact ih
    · rw [if_neg hak]
      by_cases hak' : a.1 = k'
      · rw [List.find?_cons_of_pos _ (by simp [hak']), List.find?_cons_of_pos _ (by simp [hak'])]
      · rw [List.find?_cons_of_neg _ (by simp [hak']), List.find?_cons_of_neg _ (by simp [hak'])]
        exact ih

lemma findMapUpdate_self {α : Type} (t : List (ℤ × α)) (k : ℤ) (v : α)
    (h : ∃ p ∈ t, p.1 = k) :
    (t.map (fun p => if p.1 = k then (k, v) else p)).find? (fun p => p.1 = k)
      = some (k, v) := by
  induction t with
  | nil => exact absurd h (by simp)
  | cons a t ih =>
    rw [List.map_cons]
    by_cases hak : a.1 = k
    · rw [if_pos hak, List.find?_cons_of_pos _ (by simp)]
    · rw [if_neg hak, List.find?_cons_of_neg _ (by simp [hak])]
      apply ih
      rcases h with ⟨p, hp, he⟩
      rcases List.mem_cons.mp hp with rfl | hp'
      · exact absurd he hak
      · exact ⟨p, hp', he⟩

lemma dictLookup_dictInsert {α : Type} (d : List (ℤ × α)) (k : ℤ) (v : α) (k' : ℤ) :
    dictLookup (dictInsert d k v) k' = if k' = k then some v else dictLookup d k' := by
  unfold dictInsert dictLookup
  by_cases hany : d.any (fun p => p.1 = k) = true
  · rw [if_pos hany]
    by_cases hk : k' = k
    · subst hk
      rw [if_pos rfl, findMapUpdate_self d k' v (by simpa using hany)]
      rfl
    · rw [if_neg hk, findMapUpdate d k v k' hk]
  · rw [if_neg hany, List.find?_append]
    have hnone : d.find? (fun p => decide (p.1 = k)) = none := by
      rw [List.find?_eq_none]
      intro x hx
      simp only [decide_eq_true_eq]
      intro he
      exact hany (List.any_eq_true.mpr ⟨x, hx, by simp [he]⟩)
    by_cases hk : k' = k
    · subst hk
      rw [if_pos rfl, hnone]
      simp [List.find?]
    · rw [if_neg hk]
      cases hfd : d.find? (fun p => decide (p.1 = k')) with
      | some p => simp [Option.or]
      | none =>
        have hkk : (decide (k = k')) = false := decide_eq_false (fun h => hk h.symm)
        simp [List.find?, Option.or, hkk]

lemma colorTable_lookup_aux (ids : List ℤ) (acc : List (ℤ × Color)) (c : ℤ) :
    dictLookup (ids.foldl (fun acc i => dictInsert acc i (getColorById i)) acc) c =
      if c ∈ ids then some (getColorById c) else dictLookup acc c := by
  induction ids generalizing acc with
  | nil => simp
  | cons a t ih =>
    rw [List.foldl_cons, ih]
    by_cases hct : c ∈ t
    · rw [if_pos hct, if_pos (List.mem_cons_of_mem a hct)]
    · rw [if_neg hct, dictLookup_dictInsert]
      by_cases hca : c = a
      · subst hca
        rw [if_pos rfl, if_pos (List.mem_cons_self c t)]
      · rw [if_neg hca, if_neg (by simp [List.mem_cons, hca, hct])]

lemma colorTable_lookup (ids : List ℤ) (c : ℤ) :
    dictLookup (colorTable ids) c =
      if c ∈ ids then some (getColorById c) else none := by
  unfold colorTable
  rw [colorTable_lookup_aux]
  rfl

lemma mapOfIds_lookup (ids : List ℤ) (f : ℤ → Color) (c : ℤ) :
    dictLookup (ids.map (fun i => (i, f i))) c =
      if c ∈ ids then some (f c) else none := by
  unfold dictLookup
  induction ids with
  | nil => simp
  | cons a t ih =>
    rw [List.map_cons]
    by_cases hca : c = a
    · subst hca
      rw [List.find?_cons_of_pos _ (by simp)]
      simp
    · rw [List.find?_cons_of_neg _ (by simp [Ne.symm hca])]
      rw [ih]
      by_cases hct : c ∈ t
      · rw [if_pos hct, if_pos (List.mem_cons_of_mem a hct)]
      · rw [if_neg hct, if_neg (by simp [List.mem_cons, hca, hct])]

/-! ### Propagation and match-mapping lemmas -/

lemma propagate_lookup_untouched (table : List (ℤ × Color)) (l : List (ℤ × ℤ))
    (acc : List (ℤ × Color)) (m : ℤ) (h : ∀ p ∈ l, p.2 ≠ m) :
    dictLookup (l.foldl (propagateStep table) acc) m = dictLookup acc m := by
  induction l generalizing acc with
  | nil => rfl
  | cons a t ih =>
    rw [List.foldl_cons, ih _ (fun p hp => h p (List.mem_cons_of_mem a hp))]
    unfold propagateStep
    cases hfd : dictLookup table a.1 with
    | none => rfl
    | some col =>
      rw [dictLookup_dictInsert]
      rw [if_neg (fun he => h a (List.mem_cons_self a t) he.symm)]

lemma propagate_lookup_found (table : List (ℤ × Color)) (l₁ l₂ : List (ℤ × ℤ))
    (c m : ℤ) (col : Color) (acc : List (ℤ × Color))
    (hc : dictLookup table c = some col) (h₂ : ∀ p ∈ l₂, p.2 ≠ m) :
    dictLookup ((l₁ ++ (c, m) :: l₂).foldl (propagateStep table) acc) m = some col := by
  rw [List.foldl_append, List.foldl_cons]
  rw [propagate_lookup_untouched table l₂ _ m h₂]
  show dictLookup (propagateStep table (l₁.foldl (propagateStep table) acc) (c, m)) m
    = some col
  unfold propagateStep
  dsimp only
  rw [hc, dictLookup_dictInsert, if_pos rfl]

lemma buildMatchMappings_step_sources (ms : List PlanarMatch)
    (acc : List (ℤ × ℤ) × List (ℤ × ℤ)) :
    (∀ p ∈ (ms.foldl
        (fun acc mt =>
          if mt.otherId < 0 then acc
          else if mt.curType = 1 then (acc.1, dictInsert acc.2 mt.curId mt.otherId)
          else if mt.curType = 2 then (dictInsert acc.1 mt.curId mt.otherId, acc.2)
          else acc) acc).1,
      p ∈ acc.1 ∨ ∃ mt ∈ ms, ¬(mt.otherId < 0) ∧ p = (mt.curId, mt.otherId)) ∧
    (∀ p ∈ (ms.foldl
        (fun acc mt =>
          if mt.otherId < 0 then acc
          else if mt.curType = 1 then (acc.1, dictInsert acc.2 mt.curId mt.otherId)
          else if mt.curType = 2 then (dictInsert acc.1 mt.curId mt.otherId, acc.2)
          else acc) acc).2,
      p ∈ acc.2 ∨ ∃ mt ∈ ms, ¬(mt.otherId < 0) ∧ p = (mt.curId, mt.otherId)) := by
  induction ms generalizing acc with
  | nil => exact ⟨fun p hp => Or.inl hp, fun p hp => Or.inl hp⟩
  | cons mt t ih =>
    rw [List.foldl_cons]
    constructor
    · intro p hp
      rcases (ih _).1 p hp with hstep | ⟨mt', hmt', hv, he⟩
      · -- p was already in the stepped accumulator's first component
        by_cases h1 : mt.otherId < 0
        · rw [if_pos h1] at hstep
          exact Or.inl hstep
        · rw [if_neg h1] at hstep
          by_cases h2 : mt.curType = 1
          · rw [if_pos h2] at hstep
            exact Or.inl hstep
          · rw [if_neg h2] at hstep
            by_cases h3 : mt.curType = 2
            · rw [if_pos h3] at hstep
              rcases mem_dictInsert _ _ _ _ hstep with he | hin
              · exact Or.inr ⟨mt, List.mem_cons_self mt t, h1, he⟩
              · exact Or.inl hin
            · rw [if_neg h3] at hstep
              exact Or.inl hstep
      · exact Or.inr ⟨mt', List.mem_cons_of_mem mt hmt', hv, he⟩
    · intro p hp
      rcases (ih _).2 p hp with hstep | ⟨mt', hmt', hv, he⟩
      · by_cases h1 : mt.otherId < 0
        · rw [if_pos h1] at hstep
          exact Or.inl hstep
        · rw [if_neg h1] at hstep
          by_cases h2 : mt.curType = 1
          · rw [if_pos h2] at hstep
            rcases mem_dictInsert _ _ _ _ hstep with he | hin
            · exact Or.inr ⟨mt, List.mem_cons_self mt t, h1, he⟩
            · exact Or.inl hin
          · rw [if_neg h2] at hstep
            by_cases h3 : mt.curType = 2
            · rw [if_pos h3] at hstep
              exact Or.inl hstep
            · rw [if_neg h3] at hstep
              exact Or.inl hstep
      · exact Or.inr ⟨mt', List.mem_cons_of_mem mt hmt', hv, he⟩

lemma buildMatchMappings_sources (ms : List PlanarMatch) :
    (∀ p ∈ (buildMatchMappings ms).1,
      ∃ mt ∈ ms, ¬(mt.otherId < 0) ∧ p = (mt.curId, mt.otherId)) ∧
    (∀ p ∈ (buildMatchMappings ms).2,
      ∃ mt ∈ ms, ¬(mt.otherId < 0) ∧ p = (mt.curId, mt.otherId)) := by
  have h := buildMatchMappings_step_sources ms ([], [])
  constructor
  · intro p hp
    rcases h.1 p hp with hin | hsrc
    · exact absurd hin (List.not_mem_nil p)
    · exact hsrc
  · intro p hp
    rcases h.2 p hp with hin | hsrc
    · exact absurd hin (List.not_mem_nil p)
    · exact hsrc

lemma buildMatchMappings_plane_aux (ms : List PlanarMatch)
    (acc : List (ℤ × ℤ) × List (ℤ × ℤ))
    (hdisj : ∀ mt ∈ validPlaneMatches ms, ∀ p ∈ acc.2, p.1 ≠ mt.curId)
    (hnd : ((validPlaneMatches ms).map PlanarMatch.curId).Nodup) :
    (ms.foldl
        (fun acc mt =>
          if mt.otherId < 0 then acc
          else if mt.curType = 1 then (acc.1, dictInsert acc.2 mt.curId mt.otherId)
          else if mt.curType = 2 then (dictInsert acc.1 mt.curId mt.otherId, acc.2)
          else acc) acc).2
      = acc.2 ++ (validPlaneMatches ms).map (fun mt => (mt.curId, mt.otherId)) := by
  induction ms generalizing acc with
  | nil => simp [validPlaneMatches]
  | cons mt t ih =>
    rw [List.foldl_cons]
    by_cases h1 : mt.otherId < 0
    · have hvp : validPlaneMatches (mt :: t) = validPlaneMatches t := by
        unfold validPlaneMatches
        rw [List.filter_cons, if_neg (by simp [h1])]
      rw [if_pos h1, hvp]
      apply ih
      · intro mt' hm
        exact hdisj mt' (by rw [hvp]; exact hm)
      · rw [hvp] at hnd
        exact hnd
    · rw [if_neg h1]
      by_cases h2 : mt.curType = 1
      · have hvp : validPlaneMatches (mt :: t) = mt :: validPlaneMatches t := by
          unfold validPlaneMatches
          rw [List.filter_cons, if_pos (by simp [h1, h2])]
        have hfresh : ∀ p ∈ acc.2, p.1 ≠ mt.curId :=
          hdisj mt (by rw [hvp]; exact List.mem_cons_self mt _)
        have hins : dictInsert acc.2 mt.curId mt.otherId
            = acc.2 ++ [(mt.curId, mt.otherId)] := dictInsert_fresh _ _ _ hfresh
        have hnotin : mt.curId ∉ (validPlaneMatches t).map PlanarMatch.curId := by
          have h := hnd
          rw [hvp, List.map_cons] at h
          exact (List.nodup_cons.mp h).1
        have hnd' : ((validPlaneMatches t).map PlanarMatch.curId).Nodup := by
          have h := hnd
          rw [hvp, List.map_cons] at h
          exact (List.nodup_cons.mp h).2
        rw [if_pos h2]
        rw [ih (acc.1, dictInsert acc.2 mt.curId mt.otherId) ?_ hnd']
        · show dictInsert acc.2 mt.curId mt.otherId ++ _ = _
          rw [hins, hvp, List.map_cons, List.append_assoc, List.singleton_append]
        · intro mt' hm p hp
          show p.1 ≠ mt'.curId
          rw [hins] at hp
          rcases List.mem_append.mp hp with hin | hone
          · exact hdisj mt' (by rw [hvp]; exact List.mem_cons_of_mem mt hm) p hin
          · rw [List.mem_singleton.mp hone]
            intro he
            have he' : mt.curId = mt'.curId := he
            exact hnotin (he' ▸ List.mem_map_of_mem PlanarMatch.curId hm)
      · have hvp : validPlaneMatches (mt :: t) = validPlaneMatches t := by
          unfold validPlaneMatches
          rw [List.filter_cons, if_neg (by simp [h1, h2])]
        rw [if_neg h2, hvp]
        by_cases h3 : mt.curType = 2
        · rw [if_pos h3]
          apply ih
          · intro mt' hm
            exact hdisj mt' (by rw [hvp]; exact hm)
          · rw [hvp] at hnd
            exact hnd
        · rw [if_neg h3]
          apply ih
          · intro mt' hm
            exact hdisj mt' (by rw [hvp]; exact hm)
          · rw [hvp] at hnd
            exact hnd

lemma buildMatchMappings_plane_eq (ms : List PlanarMatch)
    (hnd : ((validPlaneMatches ms).map PlanarMatch.curId).Nodup) :
    (buildMatchMappings ms).2
      = (validPlaneMatches ms).map (fun mt => (mt.curId, mt.otherId)) := by
  unfold buildMatchMappings
  rw [buildMatchMappings_plane_aux ms ([], []) (fun mt hm p hp => absurd hp (List.not_mem_nil p)) hnd]
  rfl

lemma getColorById_two_eq : getColorById 2 = ((9/10 : ℚ), (127/150 : ℚ), (9/50 : ℚ)) := by
  have h2 : ((2 : ℤ) % 18).toNat = 2 := by decide
  unfold getColorById
  rw [if_neg (by decide), h2, idColors_getD 2 (by norm_num), generateIdColorHue_eq 2 (by norm_num)]
  have harg : ((20 + ((2 : ℕ) : ℚ) / 18 * 320) / 360 : ℚ) = 25/162 := by norm_num
  rw [harg]
  have hf : ⌊(25/162 : ℚ) * 6⌋ = 0 := floor_eq_of_bounds _ 0 (by norm_num) (by norm_num)
  simp only [hsvToRgb, hf]
  norm_num [Prod.mk.injEq]

lemma getColorById_three_eq : getColorById 3 = ((37/50 : ℚ), (9/10 : ℚ), (9/50 : ℚ)) := by
  have h3 : ((3 : ℤ) % 18).toNat = 3 := by decide
  unfold getColorById
  rw [if_neg (by decide), h3, idColors_getD 3 (by norm_num), generateIdColorHue_eq 3 (by norm_num)]
  have harg : ((20 + ((3 : ℕ) : ℚ) / 18 * 320) / 360 : ℚ) = 11/54 := by norm_num
  rw [harg]
  have hf : ⌊(11/54 : ℚ) * 6⌋ = 1 := floor_eq_of_bounds _ 1 (by norm_num) (by norm_num)
  simp only [hsvToRgb, hf]
  norm_num [Prod.mk.injEq]

/-- C1 (amended): for a frame displayed with a valid `T_opt_w_b` and parsed
plane matches forming a one-to-one mapping on its valid plane entries (no two
valid plane matches share a `cur_id` or an `other_id`), every valid plane
match `cur=(plane,c) → other=(plane,m)` whose transformed plane `c` was
displayed colors `map_plane_m` with exactly the color of
`transformed_cloud_{frame_id}_T_opt_w_b_plane_c` (the id-palette color of
`c`), and every map plane whose id is not the `other` of any valid match is
colored pure red. Without the one-to-one condition the claim fails (see the
counterexample): later dict entries overwrite earlier ones. -/
theorem mapPlane_match_color (inp : FrameInput) (ms : List PlanarMatch) (c m : ℤ)
    (ht : inp.hasTransform = true)
    (hms : inp.planeMatches = some ms)
    (hndc : ((validPlaneMatches ms).map PlanarMatch.curId).Nodup)
    (hndo : ((validPlaneMatches ms).map PlanarMatch.otherId).Nodup)
    (hmem : (⟨1, c, m⟩ : PlanarMatch) ∈ ms) (hm0 : 0 ≤ m)
    (hc : c ∈ inp.framePlaneIds) :
    dictLookup (displayFrame inp).transformedPlaneColors c
        = some (pyClamp01 (getColorById c)) ∧
    (m ∈ inp.mapPlaneIds →
      dictLookup (displayFrame inp).mapPlaneColors m
        = some (pyClamp01 (getColorById c))) ∧
    (∀ m' ∈ inp.mapPlaneIds,
      (∀ mt ∈ ms, ¬(mt.otherId < 0) → mt.otherId ≠ m') →
      dictLookup (displayFrame inp).mapPlaneColors m'
        = some (pyClamp01 redColor)) := by
  have hvalid : (⟨1, c, m⟩ : PlanarMatch) ∈ validPlaneMatches ms := by
    unfold validPlaneMatches
    rw [List.mem_filter]
    refine ⟨hmem, ?_⟩
    simp only [decide_eq_true_eq]
    exact ⟨by omega, by trivial⟩
  have hmp : (parsedMappings inp.planeMatches).2
      = (validPlaneMatches ms).map (fun mt => (mt.curId, mt.otherId)) := by
    rw [hms]
    exact buildMatchMappings_plane_eq ms hndc
  refine ⟨?_, ?_, ?_⟩
  · have h1 : (displayFrame inp).transformedPlaneColors
        = inp.framePlaneIds.map (fun i => (i, pyClamp01 (getColorById i))) := by
      simp [displayFrame, ht]
    rw [h1, mapOfIds_lookup, if_pos hc]
  · intro hmmap
    have h2 : (displayFrame inp).mapPlaneColors
        = inp.mapPlaneIds.map
            (fun i => (i, pyClamp01 (mapEntityColor (frameMapIdToColor inp) i))) := rfl
    rw [h2, mapOfIds_lookup, if_pos hmmap]
    have hlook : dictLookup (frameMapIdToColor inp) m = some (getColorById c) := by
      unfold frameMapIdToColor buildMapIdToColor
      have hcm : ((c, m) : ℤ × ℤ) ∈ (parsedMappings inp.planeMatches).2 := by
        rw [hmp]
        exact List.mem_map.mpr ⟨⟨1, c, m⟩, hvalid, rfl⟩
      obtain ⟨l₁, l₂, hsplit⟩ := List.append_of_mem hcm
      have hsnd : ((parsedMappings inp.planeMatches).2.map Prod.snd).Nodup := by
        rw [hmp, List.map_map]
        exact hndo
      have h₂ : ∀ p ∈ l₂, p.2 ≠ m := by
        intro p hp he
        rw [hsplit, List.map_append, List.map_cons] at hsnd
        have := (List.Nodup.of_append_right hsnd)
        rw [List.nodup_cons] at this
        exact this.1 (List.mem_map.mpr ⟨p, hp, he⟩)
      rw [hsplit]
      exact propagate_lookup_found _ l₁ l₂ c m _ _
        (by rw [colorTable_lookup, if_pos hc]) h₂
    unfold mapEntityColor
    rw [hlook]
    rfl
  · intro m' hmmap hno
    have h2 : (displayFrame inp).mapPlaneColors
        = inp.mapPlaneIds.map
            (fun i => (i, pyClamp01 (mapEntityColor (frameMapIdToColor inp) i))) := rfl
    rw [h2, mapOfIds_lookup, if_pos hmmap]
    have hsources := buildMatchMappings_sources ms
    have hlook : dictLookup (frameMapIdToColor inp) m' = none := by
      unfold frameMapIdToColor buildMapIdToColor
      rw [propagate_lookup_untouched _ _ _ _ ?_, propagate_lookup_untouched _ _ _ _ ?_]
      · rfl
      · intro p hp
        rw [hms] at hp
        obtain ⟨mt, hmt, hv, he⟩ := hsources.1 p hp
        rw [he]
        exact hno mt hmt hv
      · intro p hp
        rw [hms] at hp
        obtain ⟨mt, hmt, hv, he⟩ := hsources.2 p hp
        rw [he]
        exact hno mt hmt hv
    unfold mapEntityColor
    rw [hlook]
    rfl

/-- Witness for `mapPlane_match_color`: one valid plane match `(2 → 5)` with
`map_plane_5` taking the transformed plane 2's color. -/
theorem mapPlane_match_color_witness :
    dictLookup (displayFrame ⟨true, [], [2], some [⟨1, 2, 5⟩], [], [5]⟩).transformedPlaneColors 2
        = some (pyClamp01 (getColorById 2)) ∧
    dictLookup (displayFrame ⟨true, [], [2], some [⟨1, 2, 5⟩], [], [5]⟩).mapPlaneColors 5
        = some (pyClamp01 (getColorById 2)) :=
  ⟨(mapPlane_match_color ⟨true, [], [2], some [⟨1, 2, 5⟩], [], [5]⟩ [⟨1, 2, 5⟩] 2 5
      rfl rfl (by decide) (by decide) (by decide) (by decide) (by decide)).1,
   (mapPlane_match_color ⟨true, [], [2], some [⟨1, 2, 5⟩], [], [5]⟩ [⟨1, 2, 5⟩] 2 5
      rfl rfl (by decide) (by decide) (by decide) (by decide) (by decide)).2.1 (by decide)⟩

/-- C1 counterexample: with the two valid plane matches `(2 → 5)` and
`(3 → 5)` (both transformed planes displayed), the shared dict entry for map
plane 5 is overwritten by the later match, so `map_plane_5` gets plane 3's
color, *not* the color of `transformed_cloud_*_plane_2` asserted by the claim
for the match `(2 → 5)` — the colors differ. -/
theorem mapPlane_match_color_cex :
    dictLookup (displayFrame ⟨true, [], [2, 3], some [⟨1, 2, 5⟩, ⟨1, 3, 5⟩], [], [5]⟩).transformedPlaneColors 2
        = some (pyClamp01 (getColorById 2)) ∧
    dictLookup (displayFrame ⟨true, [], [2, 3], some [⟨1, 2, 5⟩, ⟨1, 3, 5⟩], [], [5]⟩).mapPlaneColors 5
        = some (pyClamp01 (getColorById 3)) ∧
    pyClamp01 (getColorById 3) ≠ pyClamp01 (getColorById 2) := by
  refine ⟨rfl, rfl, ?_⟩
  rw [getColorById_two_eq, getColorById_three_eq]
  unfold pyClamp01
  norm_num

/-- C4 (amended): when `T_opt_w_b` is absent for a frame with
`frame_id ≥ 1`, the pipeline logs the degradation, displays the frame-role
ground/plane entities with plain id-palette colors instead of transformed
entities, and still renders the frame; however it does *not* skip the
matching/propagation step — `match.json` is still parsed and the recorded
id-palette colors are propagated to the map entities exactly as in the
transformed path. -/
theorem displayFrame_missing_transform (inp : FrameInput)
    (hmt : inp.hasTransform = false) :
    (displayFrame inp).warnedMissingTransform = true ∧
    (displayFrame inp).rendered = true ∧
    (displayFrame inp).framePlaneColors
        = inp.framePlaneIds.map (fun i => (i, pyClamp01 (getColorById i))) ∧
    (displayFrame inp).frameGroundColors
        = inp.frameGroundIds.map (fun i => (i, pyClamp01 (getColorById i))) ∧
    (displayFrame inp).transformedPlaneColors = [] ∧
    (displayFrame inp).transformedGroundColors = [] ∧
    (displayFrame inp).mapPlaneColors
        = (displayFrame { inp with hasTransform := true }).mapPlaneColors ∧
    (displayFrame inp).mapGroundColors
        = (displayFrame { inp with hasTransform := true }).mapGroundColors := by
  refine ⟨?_, rfl, ?_, ?_, ?_, ?_, rfl, rfl⟩
  · simp [displayFrame, hmt]
  · simp [displayFrame, hmt]
  · simp [displayFrame, hmt]
  · simp [displayFrame, hmt]
  · simp [displayFrame, hmt]

/-- Witness for `displayFrame_missing_transform` at a concrete input. -/
theorem displayFrame_missing_transform_witness :
    (displayFrame ⟨false, [], [2], some [⟨1, 2, 5⟩], [], [5]⟩).warnedMissingTransform = true ∧
    (displayFrame ⟨false, [], [2], some [⟨1, 2, 5⟩], [], [5]⟩).mapPlaneColors
      = (displayFrame ⟨true, [], [2], some [⟨1, 2, 5⟩], [], [5]⟩).mapPlaneColors :=
  ⟨(displayFrame_missing_transform ⟨false, [], [2], some [⟨1, 2, 5⟩], [], [5]⟩ rfl).1,
   (displayFrame_missing_transform ⟨false, [], [2], some [⟨1, 2, 5⟩], [], [5]⟩ rfl).2.2.2.2.2.2.1⟩

/-- C4 counterexample: with `T_opt_w_b` absent but one valid plane match
`(2 → 5)`, the map plane 5 is still displayed with the *propagated* id-palette
color of frame plane 2 — not red — so the matching/propagation step was not
skipped as the claim states. -/
theorem displayFrame_missing_transform_cex :
    (displayFrame ⟨false, [], [2], some [⟨1, 2, 5⟩], [], [5]⟩).warnedMissingTransform = true ∧
    dictLookup (displayFrame ⟨false, [], [2], some [⟨1, 2, 5⟩], [], [5]⟩).mapPlaneColors 5
        = some (pyClamp01 (getColorById 2)) ∧
    pyClamp01 (getColorById 2) ≠ pyClamp01 redColor := by
  refine ⟨rfl, rfl, ?_⟩
  rw [getColorById_two_eq]
  unfold pyClamp01 redColor
  norm_num

end PCViz
